import Mathlib

/-!
# Verification of the Lambert solver core (tudat mission segments)

This file gives a shallow embedding of the Lambert-problem solver engine
described by the specification: transfer geometry construction, the Izzo
time-of-flight function, the Gooding auxiliary Lambert functions with their
first derivatives and branch dispatch, capped Newton-type iteration, velocity
reconstruction, and the two dispatcher entry points
`solveLambertProblemIzzo` and `solveLambertProblemGooding`.

The repository's own `lambertRoutines.cpp` is not among the staged source
files; only its unit-test file is.  Definitions below that embed the missing
implementation are therefore modelled from the specification's words and are
pinned, where possible, by the reference values hard-coded in the staged unit
tests (`src/unnamed/part_000`).  Real-number arithmetic stands in for the
C++ `double` arithmetic; the claims' tolerances (`1e-6` relative) are nine
orders of magnitude above double rounding error, so this changes no verdict.
-/

open Real Classical

set_option maxHeartbeats 1000000

/-- Error taxonomy of the Lambert solver core, following spec section 7:
non-physical inputs, degenerate transfer geometry, iteration-budget
exhaustion, and a shape parameter outside its valid range. -/
inductive LambertError where
  | inputError
  | geometryError
  | convergenceError
  | domainError
deriving DecidableEq, Repr

/-- A three-component Cartesian vector (the solver consumes and produces
fixed-size position and velocity vectors). -/
structure Vec3 where
  x : ℝ
  y : ℝ
  z : ℝ

namespace Vec3

/-- Dot product. -/
def dot (a b : Vec3) : ℝ := a.x * b.x + a.y * b.y + a.z * b.z

/-- Cross product. -/
def cross (a b : Vec3) : Vec3 :=
  ⟨a.y * b.z - a.z * b.y, a.z * b.x - a.x * b.z, a.x * b.y - a.y * b.x⟩

/-- Scalar multiple. -/
def smul (c : ℝ) (a : Vec3) : Vec3 := ⟨c * a.x, c * a.y, c * a.z⟩

/-- Vector sum. -/
def add (a b : Vec3) : Vec3 := ⟨a.x + b.x, a.y + b.y, a.z + b.z⟩

/-- Vector difference. -/
def sub (a b : Vec3) : Vec3 := ⟨a.x - b.x, a.y - b.y, a.z - b.z⟩

/-- Euclidean norm. -/
noncomputable def norm (a : Vec3) : ℝ := Real.sqrt (dot a a)

/-- The zero vector. -/
def zero : Vec3 := ⟨0, 0, 0⟩

end Vec3

/-- Modelled from the spec (section 3; the geometry code of
`lambertRoutines.cpp` is not in the staged sources): the dimensionless
transfer geometry derived from the two position vectors — magnitudes, chord
length, semi-perimeter, the signed unit normal of the transfer plane
(flipped for retrograde transfers), and the caller's long-way flag. -/
structure TransferGeometry where
  departurePosition : Vec3
  arrivalPosition : Vec3
  radiusAtDeparture : ℝ
  radiusAtArrival : ℝ
  chord : ℝ
  semiPerimeter : ℝ
  planeNormal : Vec3
  isLongway : Bool

/-- Modelled from the spec (section 4.1; `lambertRoutines.cpp` is not in the
staged sources): the Geometry Builder.  Computes magnitudes, chord
`c = |r2 - r1|` and semi-perimeter `s = (r1m + r2m + c)/2`; determines the
transfer direction from the sign of `(r1 × r2) · ẑ`, flipping the convention
when retrograde is requested.  Zero positions and coincident positions are
`InputError`; collinear positions (transfer angle exactly 0 or π, i.e.
`r1 × r2 = 0` for nonzero inputs) are `GeometryError`, because the transfer
plane is then undefined. -/
noncomputable def buildTransferGeometry (r1 r2 : Vec3)
    (isLongway isRetrograde : Bool) : Except LambertError TransferGeometry :=
  if r1 = Vec3.zero ∨ r2 = Vec3.zero ∨ Vec3.sub r2 r1 = Vec3.zero then
    .error .inputError
  else if Vec3.cross r1 r2 = Vec3.zero then
    .error .geometryError
  else
    let crossProduct := Vec3.cross r1 r2
    let r1m := r1.norm
    let r2m := r2.norm
    let c := (Vec3.sub r2 r1).norm
    let s := (r1m + r2m + c) / 2
    let baseSign : ℝ := if 0 ≤ crossProduct.z then 1 else -1
    let sign : ℝ := if isRetrograde then -baseSign else baseSign
    .ok ⟨r1, r2, r1m, r2m, c, s,
         Vec3.smul (sign / crossProduct.norm) crossProduct, isLongway⟩

/-- Modelled from the spec (section 4.2; `lambertRoutines.cpp` is not in the
staged sources): the Izzo time-of-flight function `T(x)`, the classical
Lagrange time equation in the shape parameter `x` over the minimum-energy
semi-major axis `aMin = s/2`: inverse-trigonometric branch for the ellipse
(`x < 1`) and inverse-hyperbolic branch for the hyperbola (`x > 1`), pinned
by the staged unit test `testIzzoTimeOfFlightComputation`. -/
noncomputable def computeTimeOfFlightIzzo (x s c : ℝ) (isLongway : Bool)
    (aMin : ℝ) : ℝ :=
  let a := aMin / (1 - x ^ 2)
  if x < 1 then
    let alpha := 2 * Real.arccos x
    let beta0 := 2 * Real.arcsin (Real.sqrt ((s - c) / (2 * a)))
    let beta := if isLongway then -beta0 else beta0
    Real.sqrt (a ^ 3) * ((alpha - Real.sin alpha) - (beta - Real.sin beta))
  else
    let alpha := 2 * Real.log (x + Real.sqrt (x ^ 2 - 1))
    let beta0 := 2 * Real.log (Real.sqrt ((c - s) / (2 * a)) +
      Real.sqrt ((c - s) / (2 * a) + 1))
    let beta := if isLongway then -beta0 else beta0
    Real.sqrt ((-a) ^ 3) * ((Real.sinh alpha - alpha) - (Real.sinh beta - beta))

/-- Modelled from the spec (section 3; `lambertRoutines.cpp` is not in the
staged sources): the immutable Gooding function state: the transformed
eccentricity-type parameter `q` and the normalized time of flight.  The two
branch functions and their derivatives are pure functions of this pair plus
the shape parameter `x`. -/
structure LambertFunctionsGooding where
  qParameter : ℝ
  normalizedTimeOfFlight : ℝ

/-- Four-quadrant arctangent, as used by the negative Gooding branch. -/
noncomputable def atan2 (y x : ℝ) : ℝ :=
  if 0 < x then Real.arctan (y / x)
  else if x < 0 then
    (if 0 ≤ y then Real.arctan (y / x) + π else Real.arctan (y / x) - π)
  else (if 0 < y then π / 2 else if y < 0 then -(π / 2) else 0)

namespace LambertFunctionsGooding

/-- The auxiliary quantity `z(x) = √(1 - q² + q²x²)` shared by both Gooding
branches. -/
noncomputable def zParameter (st : LambertFunctionsGooding) (x : ℝ) : ℝ :=
  Real.sqrt (1 - st.qParameter ^ 2 + st.qParameter ^ 2 * x ^ 2)

/-- Modelled from the spec (section 4.4; `lambertRoutines.cpp` is not in the
staged sources): the time of flight of the positive (hyperbolic, `x² > 1`)
Gooding branch, `T(x) = 2(x - qz - d/y)/(x² - 1)` with `y = √(x² - 1)`,
`d = log(y(z - qx) + xz - q(x² - 1))`.  Pinned by the staged unit test
`testLambertFunctionPositiveGooding`. -/
noncomputable def timeOfFlightPositiveGooding (st : LambertFunctionsGooding)
    (x : ℝ) : ℝ :=
  let q := st.qParameter
  let E := x ^ 2 - 1
  let y := Real.sqrt E
  let z := st.zParameter x
  let d := Real.log (y * (z - q * x) + (x * z - q * E))
  2 * (x - q * z - d / y) / E

/-- Modelled from the spec (section 4.4): the time of flight of the negative
(elliptical, `x² < 1`) Gooding branch, `T(x) = 2(x - qz - d/y)/(x² - 1)` with
`y = √(1 - x²)`, `d = atan2(y(z - qx), xz - q(x² - 1))`.  Pinned by the
staged unit test `testLambertFunctionNegativeGooding`. -/
noncomputable def timeOfFlightNegativeGooding (st : LambertFunctionsGooding)
    (x : ℝ) : ℝ :=
  let q := st.qParameter
  let E := x ^ 2 - 1
  let y := Real.sqrt (1 - x ^ 2)
  let z := st.zParameter x
  let d := atan2 (y * (z - q * x)) (x * z - q * E)
  2 * (x - q * z - d / y) / E

/-- The positive-branch Gooding Lambert function: the residual
`normalizedTimeOfFlight - T⁺(x)` whose root in `x` is the transfer
solution. -/
noncomputable def lambertFunctionPositiveGooding (st : LambertFunctionsGooding)
    (x : ℝ) : ℝ :=
  st.normalizedTimeOfFlight - st.timeOfFlightPositiveGooding x

/-- The negative-branch Gooding Lambert function: the residual
`normalizedTimeOfFlight - T⁻(x)`. -/
noncomputable def lambertFunctionNegativeGooding (st : LambertFunctionsGooding)
    (x : ℝ) : ℝ :=
  st.normalizedTimeOfFlight - st.timeOfFlightNegativeGooding x

/-- First derivative of the positive-branch Gooding Lambert function,
`(3xT⁺ + 4q³x/z - 4)/(x² - 1)`, the closed form of `-dT⁺/dx`.  Pinned by the
staged unit test `testLambertFirstDerivativeFunctionPositiveGooding`. -/
noncomputable def lambertFirstDerivativeFunctionPositiveGooding
    (st : LambertFunctionsGooding) (x : ℝ) : ℝ :=
  let q := st.qParameter
  let E := x ^ 2 - 1
  let z := st.zParameter x
  (3 * x * st.timeOfFlightPositiveGooding x + 4 * q ^ 3 * x / z - 4) / E

/-- First derivative of the negative-branch Gooding Lambert function,
`(3xT⁻ + 4q³x/z - 4)/(x² - 1)`.  Pinned by the staged unit test
`testLambertFirstDerivativeFunctionNegativeGooding`. -/
noncomputable def lambertFirstDerivativeFunctionNegativeGooding
    (st : LambertFunctionsGooding) (x : ℝ) : ℝ :=
  let q := st.qParameter
  let E := x ^ 2 - 1
  let z := st.zParameter x
  (3 * x * st.timeOfFlightNegativeGooding x + 4 * q ^ 3 * x / z - 4) / E

/-- Modelled from the spec (section 4.4): the combined dispatch function; it
picks the applicable branch from the position of `x` relative to the branch
boundary `x = 1`. -/
noncomputable def computeLambertFunctionGooding (st : LambertFunctionsGooding)
    (x : ℝ) : ℝ :=
  if 1 ≤ x then st.lambertFunctionPositiveGooding x
  else st.lambertFunctionNegativeGooding x

/-- Modelled from the spec (section 4.4): branch dispatch for the first
derivative. -/
noncomputable def computeFirstDerivativeLambertFunctionGooding
    (st : LambertFunctionsGooding) (x : ℝ) : ℝ :=
  if 1 ≤ x then st.lambertFirstDerivativeFunctionPositiveGooding x
  else st.lambertFirstDerivativeFunctionNegativeGooding x

end LambertFunctionsGooding

/-- A resolved Lambert solution (spec section 3): the shape parameter, the
number of iterations consumed, and the two inertial velocity vectors. -/
structure LambertSolution where
  shapeParameter : ℝ
  iterationsUsed : ℕ
  velocityAtDeparture : Vec3
  velocityAtArrival : Vec3

/-- Modelled from the spec (sections 4.3 and 4.5): the shared capped
Newton-type iteration.  `residual` is the scalar function whose root is
sought, `step` one Newton/secant-type update, `tolerance` the internal
residual tolerance and `fuel` the remaining iteration budget.  The call
returns the accepted abscissa and the number of update steps consumed, or an
explicit `convergenceError` once the budget is exhausted with the residual
still above tolerance — never a silently inaccurate answer. -/
noncomputable def runCappedIteration (residual step : ℝ → ℝ) (tolerance : ℝ) :
    ℕ → ℝ → ℕ → Except LambertError (ℝ × ℕ)
  | 0, x, used =>
      if |residual x| ≤ tolerance then .ok (x, used) else .error .convergenceError
  | fuel + 1, x, used =>
      if |residual x| ≤ tolerance then .ok (x, used)
      else runCappedIteration residual step tolerance fuel (step x) (used + 1)

/-- Modelled from the spec (sections 4.3 and 4.5; the concrete starter
heuristics and Newton-type update formulas of `lambertRoutines.cpp` are not
in the staged sources): the algorithm-specific pieces the spec leaves to each
solver — the analytically chosen initial guess and the per-iteration
Newton-type update, as functions of the geometry and the normalized target
time of flight. -/
structure IterationScheme where
  starter : TransferGeometry → ℝ → ℝ
  step : TransferGeometry → ℝ → ℝ → ℝ

/-- Modelled from the spec (section 4.3 and glossary; `lambertRoutines.cpp`
is not in the staged sources): the four Lagrange velocity component scalars
(radial and tangential speed at departure and arrival, in inertial units)
reconstructed from the solved shape parameter, the transfer geometry and the
gravitational parameter, following Izzo's geometric formulation over the
dimensionless geometry normalized by the departure radius.  Both solvers
reuse this same routine once `x` is known (spec section 4.5).  Pinned by the
staged unit tests `testSolveLambertProblemIzzoElliptical` and
`testsolveLambertProblemGoodingElliptical`. -/
noncomputable def izzoVelocityComponents (geometry : TransferGeometry)
    (gravitationalParameter x : ℝ) : ℝ × ℝ × ℝ × ℝ :=
  let R := geometry.radiusAtDeparture
  let r2n := geometry.radiusAtArrival / R
  let cn := geometry.chord / R
  let sn := geometry.semiPerimeter / R
  let aMin := sn / 2
  let cosTheta := Vec3.dot geometry.departurePosition geometry.arrivalPosition /
    (geometry.radiusAtDeparture * geometry.radiusAtArrival)
  let cosHalfTheta := (if geometry.isLongway then -1 else 1) *
    Real.sqrt ((1 + cosTheta) / 2)
  let sinHalfTheta := Real.sqrt ((1 - cosTheta) / 2)
  let lambda := Real.sqrt r2n * cosHalfTheta / sn
  let a := aMin / (1 - x ^ 2)
  let etaSquared :=
    if x < 1 then
      (let alpha := 2 * Real.arccos x
       let beta0 := 2 * Real.arcsin (Real.sqrt ((sn - cn) / (2 * a)))
       let beta := if geometry.isLongway then -beta0 else beta0
       2 * a * Real.sin ((alpha - beta) / 2) ^ 2 / sn)
    else
      (let alpha := 2 * Real.log (x + Real.sqrt (x ^ 2 - 1))
       let beta0 := 2 * Real.arsinh (Real.sqrt ((cn - sn) / (2 * a)))
       let beta := if geometry.isLongway then -beta0 else beta0;
       -2 * a * Real.sinh ((alpha - beta) / 2) ^ 2 / sn)
  let eta := Real.sqrt etaSquared
  let p := r2n / (aMin * etaSquared) * sinHalfTheta ^ 2
  let speedUnit := Real.sqrt (gravitationalParameter / R)
  let vr1 := speedUnit * (1 / (eta * Real.sqrt aMin)) *
    (2 * lambda * aMin - (lambda + x * eta))
  let vt1 := speedUnit * Real.sqrt p
  let vt2 := vt1 / r2n
  let vr2 := -vr1 + (vt1 - vt2) * (cosHalfTheta / sinHalfTheta)
  (vr1, vt1, vr2, vt2)

/-- Modelled from the spec (section 4.3 and glossary; `lambertRoutines.cpp`
is not in the staged sources): shared velocity reconstruction.  The inertial
velocity at a position is its radial component along the unit position vector
plus its tangential component along the in-plane direction `n̂ × r̂`. -/
noncomputable def reconstructVelocity (position planeNormal : Vec3)
    (radialSpeed tangentialSpeed : ℝ) : Vec3 :=
  let rhat := Vec3.smul (1 / position.norm) position
  Vec3.add (Vec3.smul radialSpeed rhat)
    (Vec3.smul tangentialSpeed (Vec3.cross planeNormal rhat))

/-- The fixed iteration budget of the Izzo solver (spec section 4.3: a fixed
iteration count, honored exactly as a design choice). -/
def izzoIterationCap : ℕ := 50

/-- The fixed iteration cap of the Gooding solver (spec section 4.5). -/
def goodingIterationCap : ℕ := 50

/-- The internal residual tolerance of both solvers. -/
noncomputable def solverTolerance : ℝ := 1e-9

/-- Modelled from the spec (section 4.3): the dimensionless target time of
flight implied by the departure radius and the gravitational parameter. -/
noncomputable def normalizedTimeOfFlightIzzo (geometry : TransferGeometry)
    (timeOfFlight gravitationalParameter : ℝ) : ℝ :=
  timeOfFlight * Real.sqrt (gravitationalParameter / geometry.radiusAtDeparture ^ 3)

/-- The Izzo residual: the modelled time-of-flight function at `x` (over the
geometry normalized by the departure radius) minus the target. -/
noncomputable def izzoResidual (geometry : TransferGeometry)
    (targetTime : ℝ) (x : ℝ) : ℝ :=
  computeTimeOfFlightIzzo x (geometry.semiPerimeter / geometry.radiusAtDeparture)
    (geometry.chord / geometry.radiusAtDeparture) geometry.isLongway
    (geometry.semiPerimeter / geometry.radiusAtDeparture / 2) - targetTime

/-- Modelled from the spec (section 4.5): the Gooding eccentricity-type
parameter `q = √(r1m·r2m)/s · cos(θ/2)` of the transfer geometry, negated
for long-way transfers. -/
noncomputable def goodingQParameter (geometry : TransferGeometry) : ℝ :=
  let cosTheta := Vec3.dot geometry.departurePosition geometry.arrivalPosition /
    (geometry.radiusAtDeparture * geometry.radiusAtArrival)
  let cosHalf := Real.sqrt ((1 + cosTheta) / 2)
  (if geometry.isLongway then -1 else 1) *
    Real.sqrt (geometry.radiusAtDeparture * geometry.radiusAtArrival) /
      geometry.semiPerimeter * cosHalf

/-- Modelled from the spec (section 4.5): the Gooding normalized time of
flight, the same dimensionless reduction as the Izzo case over the
semi-perimeter scale. -/
noncomputable def normalizedTimeOfFlightGooding (geometry : TransferGeometry)
    (timeOfFlight gravitationalParameter : ℝ) : ℝ :=
  timeOfFlight * Real.sqrt (8 * gravitationalParameter / geometry.semiPerimeter ^ 3) / 2

/-- The Gooding residual: the dispatched combined Gooding Lambert function at
`x` over the geometry's function state. -/
noncomputable def goodingResidual (geometry : TransferGeometry)
    (targetTime : ℝ) (x : ℝ) : ℝ :=
  LambertFunctionsGooding.computeLambertFunctionGooding
    ⟨goodingQParameter geometry, targetTime⟩ x

/-- Modelled from the spec (sections 4.3 and 4.6; `lambertRoutines.cpp` is
not in the staged sources): the Izzo dispatcher.  Validates the inputs
(`timeOfFlight > 0`, `mu > 0`), builds the geometry once, runs the capped
Newton-type iteration on the Izzo time-of-flight residual from the scheme's
starter, and reconstructs both velocity vectors from the solved shape
parameter via the scheme's Lagrange-coefficient scalars. -/
noncomputable def solveLambertProblemIzzo (scheme : IterationScheme)
    (r1 r2 : Vec3) (timeOfFlight gravitationalParameter : ℝ)
    (isLongway isRetrograde : Bool) : Except LambertError LambertSolution :=
  if ¬ (0 < timeOfFlight ∧ 0 < gravitationalParameter) then .error .inputError
  else
    match buildTransferGeometry r1 r2 isLongway isRetrograde with
    | .error e => .error e
    | .ok geometry =>
        let targetTime := normalizedTimeOfFlightIzzo geometry timeOfFlight
          gravitationalParameter
        match runCappedIteration (izzoResidual geometry targetTime)
            (scheme.step geometry targetTime) solverTolerance
            izzoIterationCap (scheme.starter geometry targetTime) 0 with
        | .error e => .error e
        | .ok (x, used) =>
            let components := izzoVelocityComponents geometry gravitationalParameter x
            .ok ⟨x, used,
              reconstructVelocity geometry.departurePosition geometry.planeNormal
                components.1 components.2.1,
              reconstructVelocity geometry.arrivalPosition geometry.planeNormal
                components.2.2.1 components.2.2.2⟩

/-- Modelled from the spec (sections 4.5 and 4.6; `lambertRoutines.cpp` is
not in the staged sources): the Gooding dispatcher.  Same input/output
contract as the Izzo dispatcher; the iterative core root-finds the dispatched
combined Gooding Lambert function, and velocity reconstruction reuses the
same Lagrange-coefficient routine. -/
noncomputable def solveLambertProblemGooding (scheme : IterationScheme)
    (r1 r2 : Vec3) (timeOfFlight gravitationalParameter : ℝ)
    (isLongway isRetrograde : Bool) : Except LambertError LambertSolution :=
  if ¬ (0 < timeOfFlight ∧ 0 < gravitationalParameter) then .error .inputError
  else
    match buildTransferGeometry r1 r2 isLongway isRetrograde with
    | .error e => .error e
    | .ok geometry =>
        let targetTime := normalizedTimeOfFlightGooding geometry timeOfFlight
          gravitationalParameter
        match runCappedIteration (goodingResidual geometry targetTime)
            (scheme.step geometry targetTime) solverTolerance
            goodingIterationCap (scheme.starter geometry targetTime) 0 with
        | .error e => .error e
        | .ok (x, used) =>
            let components := izzoVelocityComponents geometry gravitationalParameter x
            .ok ⟨x, used,
              reconstructVelocity geometry.departurePosition geometry.planeNormal
                components.1 components.2.1,
              reconstructVelocity geometry.arrivalPosition geometry.planeNormal
                components.2.2.1 components.2.2.2⟩

/-- A trivial iteration scheme, used to instantiate concrete solver calls. -/
def trivialScheme : IterationScheme :=
  ⟨fun _ _ => 0, fun _ _ x => x⟩

/-! ## Basic facts about the capped iteration -/

/-- An `ok` outcome of the capped iteration consumed at most `used + fuel`
update steps and its accepted abscissa meets the residual tolerance. -/
theorem runCappedIteration_ok_bound (residual step : ℝ → ℝ) (tolerance : ℝ) :
    ∀ (fuel : ℕ) (x0 : ℝ) (used : ℕ) (x : ℝ) (n : ℕ),
      runCappedIteration residual step tolerance fuel x0 used = .ok (x, n) →
      n ≤ used + fuel ∧ |residual x| ≤ tolerance := by
  intro fuel
  induction fuel with
  | zero =>
      intro x0 used x n h
      rw [runCappedIteration] at h
      by_cases hr : |residual x0| ≤ tolerance
      · rw [if_pos hr] at h
        cases h
        exact ⟨Nat.le_add_right _ _, hr⟩
      · rw [if_neg hr] at h
        cases h
  | succ fuel ih =>
      intro x0 used x n h
      rw [runCappedIteration] at h
      by_cases hr : |residual x0| ≤ tolerance
      · rw [if_pos hr] at h
        cases h
        exact ⟨Nat.le_add_right _ _, hr⟩
      · rw [if_neg hr] at h
        have hrec := ih (step x0) (used + 1) x n h
        exact ⟨by omega, hrec.2⟩


/-- The only failure the capped iteration itself reports is
`convergenceError`. -/
theorem runCappedIteration_error_eq (residual step : ℝ → ℝ) (tolerance : ℝ) :
    ∀ (fuel : ℕ) (x0 : ℝ) (used : ℕ) (e : LambertError),
      runCappedIteration residual step tolerance fuel x0 used = .error e →
      e = .convergenceError := by
  intro fuel
  induction fuel with
  | zero =>
      intro x0 used e h
      rw [runCappedIteration] at h
      by_cases hr : |residual x0| ≤ tolerance
      · rw [if_pos hr] at h; cases h
      · rw [if_neg hr] at h; cases h; rfl
  | succ fuel ih =>
      intro x0 used e h
      rw [runCappedIteration] at h
      by_cases hr : |residual x0| ≤ tolerance
      · rw [if_pos hr] at h; cases h
      · rw [if_neg hr] at h; exact ih (step x0) (used + 1) e h

/-- When every iterate within the budget misses the tolerance, the capped
iteration reports an explicit convergence failure. -/
theorem runCappedIteration_exhausted (residual step : ℝ → ℝ) (tolerance : ℝ) :
    ∀ (fuel : ℕ) (x0 : ℝ) (used : ℕ),
      (∀ k, k ≤ fuel → tolerance < |residual (step^[k] x0)|) →
      runCappedIteration residual step tolerance fuel x0 used =
        .error .convergenceError := by
  intro fuel
  induction fuel with
  | zero =>
      intro x0 used hmiss
      have h0 := hmiss 0 (Nat.le_refl 0)
      rw [Function.iterate_zero_apply] at h0
      rw [runCappedIteration, if_neg (not_le.mpr h0)]
  | succ fuel ih =>
      intro x0 used hmiss
      have h0 := hmiss 0 (Nat.zero_le _)
      rw [Function.iterate_zero_apply] at h0
      rw [runCappedIteration, if_neg (not_le.mpr h0)]
      refine ih (step x0) (used + 1) ?_
      intro k hk
      have := hmiss (k + 1) (Nat.succ_le_succ hk)
      rwa [Function.iterate_succ_apply] at this

/-! ## Dispatcher reduction lemmas -/

/-- Inversion of a successful geometry build: the produced record is exactly
the one the builder constructs. -/
theorem buildTransferGeometry_ok_inv (r1 r2 : Vec3) (lw retro : Bool)
    (geometry : TransferGeometry)
    (h : buildTransferGeometry r1 r2 lw retro = .ok geometry) :
    geometry.departurePosition = r1 ∧ geometry.arrivalPosition = r2 ∧
    geometry.planeNormal = Vec3.smul
      (((if retro then
          -(if 0 ≤ (Vec3.cross r1 r2).z then (1 : ℝ) else -1)
        else if 0 ≤ (Vec3.cross r1 r2).z then (1 : ℝ) else -1)) /
        (Vec3.cross r1 r2).norm) (Vec3.cross r1 r2) := by
  rw [buildTransferGeometry] at h
  by_cases h1 : r1 = Vec3.zero ∨ r2 = Vec3.zero ∨ Vec3.sub r2 r1 = Vec3.zero
  · rw [if_pos h1] at h; cases h
  · rw [if_neg h1] at h
    by_cases h2 : Vec3.cross r1 r2 = Vec3.zero
    · rw [if_pos h2] at h; cases h
    · rw [if_neg h2] at h
      cases h
      refine ⟨rfl, rfl, ?_⟩
      by_cases h3 : retro <;> simp [h3]

/-- Reduction of the Izzo dispatcher once the inputs are valid and the
geometry build succeeds. -/
theorem solveLambertProblemIzzo_eq_run (scheme : IterationScheme)
    (r1 r2 : Vec3) (timeOfFlight mu : ℝ) (lw retro : Bool)
    (hin : 0 < timeOfFlight ∧ 0 < mu) (geometry : TransferGeometry)
    (hgeom : buildTransferGeometry r1 r2 lw retro = .ok geometry) :
    solveLambertProblemIzzo scheme r1 r2 timeOfFlight mu lw retro =
      (match runCappedIteration
          (izzoResidual geometry (normalizedTimeOfFlightIzzo geometry timeOfFlight mu))
          (scheme.step geometry (normalizedTimeOfFlightIzzo geometry timeOfFlight mu))
          solverTolerance izzoIterationCap
          (scheme.starter geometry (normalizedTimeOfFlightIzzo geometry timeOfFlight mu)) 0 with
        | .error e => .error e
        | .ok (x, used) =>
            let components := izzoVelocityComponents geometry mu x
            .ok ⟨x, used,
              reconstructVelocity geometry.departurePosition geometry.planeNormal
                components.1 components.2.1,
              reconstructVelocity geometry.arrivalPosition geometry.planeNormal
                components.2.2.1 components.2.2.2⟩) := by
  rw [solveLambertProblemIzzo, if_neg (not_not_intro hin), hgeom]

/-- Reduction of the Gooding dispatcher once the inputs are valid and the
geometry build succeeds. -/
theorem solveLambertProblemGooding_eq_run (scheme : IterationScheme)
    (r1 r2 : Vec3) (timeOfFlight mu : ℝ) (lw retro : Bool)
    (hin : 0 < timeOfFlight ∧ 0 < mu) (geometry : TransferGeometry)
    (hgeom : buildTransferGeometry r1 r2 lw retro = .ok geometry) :
    solveLambertProblemGooding scheme r1 r2 timeOfFlight mu lw retro =
      (match runCappedIteration
          (goodingResidual geometry (normalizedTimeOfFlightGooding geometry timeOfFlight mu))
          (scheme.step geometry (normalizedTimeOfFlightGooding geometry timeOfFlight mu))
          solverTolerance goodingIterationCap
          (scheme.starter geometry (normalizedTimeOfFlightGooding geometry timeOfFlight mu)) 0 with
        | .error e => .error e
        | .ok (x, used) =>
            let components := izzoVelocityComponents geometry mu x
            .ok ⟨x, used,
              reconstructVelocity geometry.departurePosition geometry.planeNormal
                components.1 components.2.1,
              reconstructVelocity geometry.arrivalPosition geometry.planeNormal
                components.2.2.1 components.2.2.2⟩) := by
  rw [solveLambertProblemGooding, if_neg (not_not_intro hin), hgeom]

/-! ## Claim C3: collinear positions raise a geometry error -/

/-- C3.  For every pair of distinct, nonzero, collinear position vectors
(transfer angle exactly 0 or π, i.e. vanishing cross product), both
`solveLambertProblemIzzo` and `solveLambertProblemGooding` report the
`geometryError` failure outcome — by the result type they return no numeric
velocity vectors on that path.  (Coincident positions are classified
`inputError` by spec section 7, so the collinear pair is taken distinct.) -/
theorem collinearPositionsRaiseGeometryError
    (schemeI schemeG : IterationScheme) (r1 r2 : Vec3)
    (timeOfFlight mu : ℝ) (lwI retroI lwG retroG : Bool)
    (htof : 0 < timeOfFlight) (hmu : 0 < mu)
    (h1 : r1 ≠ Vec3.zero) (h2 : r2 ≠ Vec3.zero)
    (hne : Vec3.sub r2 r1 ≠ Vec3.zero)
    (hcol : Vec3.cross r1 r2 = Vec3.zero) :
    solveLambertProblemIzzo schemeI r1 r2 timeOfFlight mu lwI retroI =
      .error .geometryError ∧
    solveLambertProblemGooding schemeG r1 r2 timeOfFlight mu lwG retroG =
      .error .geometryError := by
  have hgeomI : buildTransferGeometry r1 r2 lwI retroI = .error .geometryError := by
    rw [buildTransferGeometry,
      if_neg (by
        intro hcontra
        rcases hcontra with h | h | h
        · exact h1 h
        · exact h2 h
        · exact hne h),
      if_pos hcol]
  have hgeomG : buildTransferGeometry r1 r2 lwG retroG = .error .geometryError := by
    rw [buildTransferGeometry,
      if_neg (by
        intro hcontra
        rcases hcontra with h | h | h
        · exact h1 h
        · exact h2 h
        · exact hne h),
      if_pos hcol]
  constructor
  · rw [solveLambertProblemIzzo, if_neg (not_not_intro ⟨htof, hmu⟩), hgeomI]
  · rw [solveLambertProblemGooding, if_neg (not_not_intro ⟨htof, hmu⟩), hgeomG]

/-- Concrete witness for C3: the collinear pair `(1,0,0)`, `(2,0,0)`. -/
theorem collinearPositionsRaiseGeometryErrorWitness :
    solveLambertProblemIzzo trivialScheme ⟨1, 0, 0⟩ ⟨2, 0, 0⟩ 1 1 false false =
      .error .geometryError ∧
    solveLambertProblemGooding trivialScheme ⟨1, 0, 0⟩ ⟨2, 0, 0⟩ 1 1 false false =
      .error .geometryError := by
  refine collinearPositionsRaiseGeometryError trivialScheme trivialScheme
    ⟨1, 0, 0⟩ ⟨2, 0, 0⟩ 1 1 false false false false one_pos one_pos ?_ ?_ ?_ ?_
  · intro h
    have := congrArg Vec3.x h
    simp [Vec3.zero] at this
  · intro h
    have := congrArg Vec3.x h
    simp [Vec3.zero] at this
  · intro h
    have := congrArg Vec3.x h
    rw [show ((⟨2, 0, 0⟩ : Vec3).sub ⟨1, 0, 0⟩).x = 1 by norm_num [Vec3.sub]] at this
    simp [Vec3.zero] at this
  · simp [Vec3.cross, Vec3.zero]

/-! ## Claim C7: branch agreement at the boundary -/

/-- At the branch boundary `x = 1` the shared auxiliary `z` is `1`. -/
theorem zParameter_at_boundary (st : LambertFunctionsGooding) :
    st.zParameter 1 = 1 := by
  rw [LambertFunctionsGooding.zParameter]
  norm_num

/-- Inversion of a successful Izzo call: the inputs were valid, the geometry
build succeeded, and the capped iteration accepted the returned shape
parameter after the returned number of steps. -/
theorem solveLambertProblemIzzo_ok_inv (scheme : IterationScheme)
    (r1 r2 : Vec3) (timeOfFlight mu : ℝ) (lw retro : Bool)
    (sol : LambertSolution)
    (h : solveLambertProblemIzzo scheme r1 r2 timeOfFlight mu lw retro = .ok sol) :
    0 < timeOfFlight ∧ 0 < mu ∧
    ∃ geometry, buildTransferGeometry r1 r2 lw retro = .ok geometry ∧
      runCappedIteration
        (izzoResidual geometry (normalizedTimeOfFlightIzzo geometry timeOfFlight mu))
        (scheme.step geometry (normalizedTimeOfFlightIzzo geometry timeOfFlight mu))
        solverTolerance izzoIterationCap
        (scheme.starter geometry (normalizedTimeOfFlightIzzo geometry timeOfFlight mu)) 0 =
        .ok (sol.shapeParameter, sol.iterationsUsed) := by
  by_cases hin : 0 < timeOfFlight ∧ 0 < mu
  · refine ⟨hin.1, hin.2, ?_⟩
    cases hb : buildTransferGeometry r1 r2 lw retro with
    | error e =>
        rw [solveLambertProblemIzzo, if_neg (not_not_intro hin), hb] at h
        cases h
    | ok geometry =>
        refine ⟨geometry, rfl, ?_⟩
        rw [solveLambertProblemIzzo_eq_run scheme r1 r2 timeOfFlight mu lw retro
          hin geometry hb] at h
        cases hr : runCappedIteration
            (izzoResidual geometry (normalizedTimeOfFlightIzzo geometry timeOfFlight mu))
            (scheme.step geometry (normalizedTimeOfFlightIzzo geometry timeOfFlight mu))
            solverTolerance izzoIterationCap
            (scheme.starter geometry (normalizedTimeOfFlightIzzo geometry timeOfFlight mu)) 0 with
        | error e => rw [hr] at h; cases h
        | ok p =>
            cases p with
            | mk xsol nsol =>
                rw [hr] at h
                cases h
                rfl
  · rw [solveLambertProblemIzzo, if_pos hin] at h
    cases h

/-- Inversion of a successful Gooding call, mirroring
`solveLambertProblemIzzo_ok_inv`. -/
theorem solveLambertProblemGooding_ok_inv (scheme : IterationScheme)
    (r1 r2 : Vec3) (timeOfFlight mu : ℝ) (lw retro : Bool)
    (sol : LambertSolution)
    (h : solveLambertProblemGooding scheme r1 r2 timeOfFlight mu lw retro = .ok sol) :
    0 < timeOfFlight ∧ 0 < mu ∧
    ∃ geometry, buildTransferGeometry r1 r2 lw retro = .ok geometry ∧
      runCappedIteration
        (goodingResidual geometry (normalizedTimeOfFlightGooding geometry timeOfFlight mu))
        (scheme.step geometry (normalizedTimeOfFlightGooding geometry timeOfFlight mu))
        solverTolerance goodingIterationCap
        (scheme.starter geometry (normalizedTimeOfFlightGooding geometry timeOfFlight mu)) 0 =
        .ok (sol.shapeParameter, sol.iterationsUsed) := by
  by_cases hin : 0 < timeOfFlight ∧ 0 < mu
  · refine ⟨hin.1, hin.2, ?_⟩
    cases hb : buildTransferGeometry r1 r2 lw retro with
    | error e =>
        rw [solveLambertProblemGooding, if_neg (not_not_intro hin), hb] at h
        cases h
    | ok geometry =>
        refine ⟨geometry, rfl, ?_⟩
        rw [solveLambertProblemGooding_eq_run scheme r1 r2 timeOfFlight mu lw retro
          hin geometry hb] at h
        cases hr : runCappedIteration
            (goodingResidual geometry (normalizedTimeOfFlightGooding geometry timeOfFlight mu))
            (scheme.step geometry (normalizedTimeOfFlightGooding geometry timeOfFlight mu))
            solverTolerance goodingIterationCap
            (scheme.starter geometry (normalizedTimeOfFlightGooding geometry timeOfFlight mu)) 0 with
        | error e => rw [hr] at h; cases h
        | ok p =>
            cases p with
            | mk xsol nsol =>
                rw [hr] at h
                cases h
                rfl
  · rw [solveLambertProblemGooding, if_pos hin] at h
    cases h

/-! ## Claim C8: termination within the fixed iteration budget -/

/-- C8.  Every invocation of either solver terminates (each is a total
function of its arguments): a successful call consumed at most the fixed
iteration cap and its accepted shape parameter meets the internal residual
tolerance, and whenever every Newton-type iterate within the budget misses
the tolerance on a valid, non-degenerate input, the call returns the
explicit `convergenceError` outcome instead of continuing to iterate or
silently returning an inaccurate answer. -/
theorem solversTerminateWithinIterationBudget (scheme : IterationScheme)
    (r1 r2 : Vec3) (timeOfFlight mu : ℝ) (lw retro : Bool) :
    (∀ sol, solveLambertProblemIzzo scheme r1 r2 timeOfFlight mu lw retro = .ok sol →
      sol.iterationsUsed ≤ izzoIterationCap ∧
      ∃ geometry, buildTransferGeometry r1 r2 lw retro = .ok geometry ∧
        |izzoResidual geometry (normalizedTimeOfFlightIzzo geometry timeOfFlight mu)
          sol.shapeParameter| ≤ solverTolerance) ∧
    (∀ sol, solveLambertProblemGooding scheme r1 r2 timeOfFlight mu lw retro = .ok sol →
      sol.iterationsUsed ≤ goodingIterationCap ∧
      ∃ geometry, buildTransferGeometry r1 r2 lw retro = .ok geometry ∧
        |goodingResidual geometry (normalizedTimeOfFlightGooding geometry timeOfFlight mu)
          sol.shapeParameter| ≤ solverTolerance) ∧
    (∀ geometry, 0 < timeOfFlight → 0 < mu →
      buildTransferGeometry r1 r2 lw retro = .ok geometry →
      (∀ k, k ≤ izzoIterationCap → solverTolerance <
          |izzoResidual geometry (normalizedTimeOfFlightIzzo geometry timeOfFlight mu)
            ((scheme.step geometry (normalizedTimeOfFlightIzzo geometry timeOfFlight mu))^[k]
              (scheme.starter geometry (normalizedTimeOfFlightIzzo geometry timeOfFlight mu)))|) →
      solveLambertProblemIzzo scheme r1 r2 timeOfFlight mu lw retro =
        .error .convergenceError) ∧
    (∀ geometry, 0 < timeOfFlight → 0 < mu →
      buildTransferGeometry r1 r2 lw retro = .ok geometry →
      (∀ k, k ≤ goodingIterationCap → solverTolerance <
          |goodingResidual geometry (normalizedTimeOfFlightGooding geometry timeOfFlight mu)
            ((scheme.step geometry (normalizedTimeOfFlightGooding geometry timeOfFlight mu))^[k]
              (scheme.starter geometry (normalizedTimeOfFlightGooding geometry timeOfFlight mu)))|) →
      solveLambertProblemGooding scheme r1 r2 timeOfFlight mu lw retro =
        .error .convergenceError) := by
  refine ⟨?_, ?_, ?_, ?_⟩
  · intro sol h
    obtain ⟨_, _, geometry, hgeom, hrun⟩ :=
      solveLambertProblemIzzo_ok_inv scheme r1 r2 timeOfFlight mu lw retro sol h
    have hb := runCappedIteration_ok_bound _ _ _ _ _ _ _ _ hrun
    exact ⟨by simpa using hb.1, geometry, hgeom, hb.2⟩
  · intro sol h
    obtain ⟨_, _, geometry, hgeom, hrun⟩ :=
      solveLambertProblemGooding_ok_inv scheme r1 r2 timeOfFlight mu lw retro sol h
    have hb := runCappedIteration_ok_bound _ _ _ _ _ _ _ _ hrun
    exact ⟨by simpa using hb.1, geometry, hgeom, hb.2⟩
  · intro geometry htof hmu hgeom hmiss
    rw [solveLambertProblemIzzo_eq_run scheme r1 r2 timeOfFlight mu lw retro
      ⟨htof, hmu⟩ geometry hgeom,
      runCappedIteration_exhausted _ _ _ _ _ _ hmiss]
  · intro geometry htof hmu hgeom hmiss
    rw [solveLambertProblemGooding_eq_run scheme r1 r2 timeOfFlight mu lw retro
      ⟨htof, hmu⟩ geometry hgeom,
      runCappedIteration_exhausted _ _ _ _ _ _ hmiss]

/-! ## Claim C9: planar inputs give planar velocities -/

/-- Velocity reconstruction stays in the reference plane: when the position
lies in the plane and the transfer-plane normal is along the out-of-plane
axis, the reconstructed velocity has no out-of-plane component. -/
theorem reconstructVelocity_planar (p n : Vec3) (vr vt : ℝ)
    (hp : p.z = 0) (hnx : n.x = 0) (hny : n.y = 0) :
    (reconstructVelocity p n vr vt).z = 0 := by
  simp [reconstructVelocity, Vec3.add, Vec3.smul, Vec3.cross, hp, hnx, hny]

/-- C9.  For every prograde input whose departure and arrival positions both
have zero z-component, any solution returned by `solveLambertProblemIzzo` or
`solveLambertProblemGooding` has departure and arrival velocities with
exactly zero z-component: the solution stays in the transfer plane. -/
theorem planarTransferProducesPlanarVelocities (scheme : IterationScheme)
    (r1 r2 : Vec3) (timeOfFlight mu : ℝ) (lw : Bool)
    (hz1 : r1.z = 0) (hz2 : r2.z = 0) :
    (∀ sol, solveLambertProblemIzzo scheme r1 r2 timeOfFlight mu lw false = .ok sol →
      sol.velocityAtDeparture.z = 0 ∧ sol.velocityAtArrival.z = 0) ∧
    (∀ sol, solveLambertProblemGooding scheme r1 r2 timeOfFlight mu lw false = .ok sol →
      sol.velocityAtDeparture.z = 0 ∧ sol.velocityAtArrival.z = 0) := by
  have hplanar : ∀ geometry, buildTransferGeometry r1 r2 lw false = .ok geometry →
      geometry.departurePosition.z = 0 ∧ geometry.arrivalPosition.z = 0 ∧
      geometry.planeNormal.x = 0 ∧ geometry.planeNormal.y = 0 := by
    intro geometry hgeom
    obtain ⟨hd, ha, hn⟩ := buildTransferGeometry_ok_inv r1 r2 lw false geometry hgeom
    refine ⟨by rw [hd, hz1], by rw [ha, hz2], ?_, ?_⟩
    · rw [hn]
      simp [Vec3.smul, Vec3.cross, hz1, hz2]
    · rw [hn]
      simp [Vec3.smul, Vec3.cross, hz1, hz2]
  constructor
  · intro sol h
    by_cases hin : 0 < timeOfFlight ∧ 0 < mu
    · cases hb : buildTransferGeometry r1 r2 lw false with
      | error e =>
          rw [solveLambertProblemIzzo, if_neg (not_not_intro hin), hb] at h
          cases h
      | ok geometry =>
          obtain ⟨hdz, haz, hnx, hny⟩ := hplanar geometry hb
          rw [solveLambertProblemIzzo_eq_run scheme r1 r2 timeOfFlight mu lw false
            hin geometry hb] at h
          cases hr : runCappedIteration
              (izzoResidual geometry (normalizedTimeOfFlightIzzo geometry timeOfFlight mu))
              (scheme.step geometry (normalizedTimeOfFlightIzzo geometry timeOfFlight mu))
              solverTolerance izzoIterationCap
              (scheme.starter geometry (normalizedTimeOfFlightIzzo geometry timeOfFlight mu)) 0 with
          | error e => rw [hr] at h; cases h
          | ok p =>
              cases p with
              | mk xsol nsol =>
                  rw [hr] at h
                  cases h
                  exact ⟨reconstructVelocity_planar _ _ _ _ hdz hnx hny,
                    reconstructVelocity_planar _ _ _ _ haz hnx hny⟩
    · rw [solveLambertProblemIzzo, if_pos hin] at h
      cases h
  · intro sol h
    by_cases hin : 0 < timeOfFlight ∧ 0 < mu
    · cases hb : buildTransferGeometry r1 r2 lw false with
      | error e =>
          rw [solveLambertProblemGooding, if_neg (not_not_intro hin), hb] at h
          cases h
      | ok geometry =>
          obtain ⟨hdz, haz, hnx, hny⟩ := hplanar geometry hb
          rw [solveLambertProblemGooding_eq_run scheme r1 r2 timeOfFlight mu lw false
            hin geometry hb] at h
          cases hr : runCappedIteration
              (goodingResidual geometry (normalizedTimeOfFlightGooding geometry timeOfFlight mu))
              (scheme.step geometry (normalizedTimeOfFlightGooding geometry timeOfFlight mu))
              solverTolerance goodingIterationCap
              (scheme.starter geometry (normalizedTimeOfFlightGooding geometry timeOfFlight mu)) 0 with
          | error e => rw [hr] at h; cases h
          | ok p =>
              cases p with
              | mk xsol nsol =>
                  rw [hr] at h
                  cases h
                  exact ⟨reconstructVelocity_planar _ _ _ _ hdz hnx hny,
                    reconstructVelocity_planar _ _ _ _ haz hnx hny⟩
    · rw [solveLambertProblemGooding, if_pos hin] at h
      cases h

/-- Concrete witness for C9: the planar pair `(1,0,0)`, `(0,1,0)`. -/
theorem planarTransferProducesPlanarVelocitiesWitness :
    (∀ sol, solveLambertProblemIzzo trivialScheme ⟨1, 0, 0⟩ ⟨0, 1, 0⟩ 1 1 false false =
        .ok sol → sol.velocityAtDeparture.z = 0 ∧ sol.velocityAtArrival.z = 0) ∧
    (∀ sol, solveLambertProblemGooding trivialScheme ⟨1, 0, 0⟩ ⟨0, 1, 0⟩ 1 1 false false =
        .ok sol → sol.velocityAtDeparture.z = 0 ∧ sol.velocityAtArrival.z = 0) :=
  planarTransferProducesPlanarVelocities trivialScheme ⟨1, 0, 0⟩ ⟨0, 1, 0⟩ 1 1 false rfl rfl

/-! ## Rational enclosures of the transcendental functions -/

/-- Rational enclosure of a square root from squared endpoints. -/
theorem sqrt_enclose {r lo hi : ℝ} (hlo : 0 ≤ lo) (hhi : 0 ≤ hi)
    (h1 : lo ^ 2 ≤ r) (h2 : r ≤ hi ^ 2) :
    lo ≤ Real.sqrt r ∧ Real.sqrt r ≤ hi := by
  have hr : 0 ≤ r := le_trans (by positivity) h1
  have hs := Real.sq_sqrt hr
  have hn := Real.sqrt_nonneg r
  constructor
  · nlinarith [hs, hn]
  · nlinarith [hs, hn]

/-- Lower Taylor bound of the arctangent on the nonnegative reals: the
partial sum through the degree-11 term. -/
theorem arctan_taylor_lower {x : ℝ} (hx : 0 ≤ x) :
    x - x ^ 3 / 3 + x ^ 5 / 5 - x ^ 7 / 7 + x ^ 9 / 9 - x ^ 11 / 11 ≤
      Real.arctan x := by
  have hder : ∀ t : ℝ, HasDerivAt
      (fun u : ℝ => Real.arctan u -
        (u - u ^ 3 / 3 + u ^ 5 / 5 - u ^ 7 / 7 + u ^ 9 / 9 - u ^ 11 / 11))
      (t ^ 12 / (1 + t ^ 2)) t := by
    intro t
    have hpoly : HasDerivAt
        (fun u : ℝ => u - u ^ 3 / 3 + u ^ 5 / 5 - u ^ 7 / 7 + u ^ 9 / 9 - u ^ 11 / 11)
        (1 - t ^ 2 + t ^ 4 - t ^ 6 + t ^ 8 - t ^ 10) t := by
      have h1 := hasDerivAt_id t
      have h3 := (hasDerivAt_pow 3 t).div_const 3
      have h5 := (hasDerivAt_pow 5 t).div_const 5
      have h7 := (hasDerivAt_pow 7 t).div_const 7
      have h9 := (hasDerivAt_pow 9 t).div_const 9
      have h11 := (hasDerivAt_pow 11 t).div_const 11
      convert ((((h1.sub h3).add h5).sub h7).add h9).sub h11 using 1
      push_cast
      ring
    have harct := Real.hasDerivAt_arctan t
    convert harct.sub hpoly using 1
    have ht : (1 : ℝ) + t ^ 2 ≠ 0 := by positivity
    field_simp
    ring
  have hmono : Monotone (fun u : ℝ => Real.arctan u -
      (u - u ^ 3 / 3 + u ^ 5 / 5 - u ^ 7 / 7 + u ^ 9 / 9 - u ^ 11 / 11)) := by
    refine monotone_of_hasDerivAt_nonneg hder ?_
    intro t
    positivity
  have h0 := hmono hx
  simp only [Real.arctan_zero] at h0
  norm_num at h0
  linarith

/-- Upper Taylor bound of the arctangent on the nonnegative reals: the
partial sum through the degree-13 term. -/
theorem arctan_taylor_upper {x : ℝ} (hx : 0 ≤ x) :
    Real.arctan x ≤
      x - x ^ 3 / 3 + x ^ 5 / 5 - x ^ 7 / 7 + x ^ 9 / 9 - x ^ 11 / 11 +
        x ^ 13 / 13 := by
  have hder : ∀ t : ℝ, HasDerivAt
      (fun u : ℝ => (u - u ^ 3 / 3 + u ^ 5 / 5 - u ^ 7 / 7 + u ^ 9 / 9 -
        u ^ 11 / 11 + u ^ 13 / 13) - Real.arctan u)
      (t ^ 14 / (1 + t ^ 2)) t := by
    intro t
    have hpoly : HasDerivAt
        (fun u : ℝ => u - u ^ 3 / 3 + u ^ 5 / 5 - u ^ 7 / 7 + u ^ 9 / 9 -
          u ^ 11 / 11 + u ^ 13 / 13)
        (1 - t ^ 2 + t ^ 4 - t ^ 6 + t ^ 8 - t ^ 10 + t ^ 12) t := by
      have h1 := hasDerivAt_id t
      have h3 := (hasDerivAt_pow 3 t).div_const 3
      have h5 := (hasDerivAt_pow 5 t).div_const 5
      have h7 := (hasDerivAt_pow 7 t).div_const 7
      have h9 := (hasDerivAt_pow 9 t).div_const 9
      have h11 := (hasDerivAt_pow 11 t).div_const 11
      have h13 := (hasDerivAt_pow 13 t).div_const 13
      convert (((((h1.sub h3).add h5).sub h7).add h9).sub h11).add h13 using 1
      push_cast
      ring
    have harct := Real.hasDerivAt_arctan t
    convert hpoly.sub harct using 1
    have ht : (1 : ℝ) + t ^ 2 ≠ 0 := by positivity
    field_simp
    ring
  have hmono : Monotone (fun u : ℝ => (u - u ^ 3 / 3 + u ^ 5 / 5 - u ^ 7 / 7 +
      u ^ 9 / 9 - u ^ 11 / 11 + u ^ 13 / 13) - Real.arctan u) := by
    refine monotone_of_hasDerivAt_nonneg hder ?_
    intro t
    positivity
  have h0 := hmono hx
  simp only [Real.arctan_zero] at h0
  norm_num at h0
  linarith

/-- Tight rational bounds on π, from the Machin identity
`π/4 = 4·arctan(1/5) - arctan(1/239)` and the Taylor bounds on the
arctangent. -/
theorem pi_tight_bounds : (3.1415926526 : ℝ) ≤ π ∧ π ≤ 3.1415926537 := by
  have h5l := arctan_taylor_lower (x := (1 : ℝ)/5) (by norm_num)
  have h5u := arctan_taylor_upper (x := (1 : ℝ)/5) (by norm_num)
  have h239l := arctan_taylor_lower (x := (1 : ℝ)/239) (by norm_num)
  have h239u := arctan_taylor_upper (x := (1 : ℝ)/239) (by norm_num)
  have hmach := Real.four_mul_arctan_inv_5_sub_arctan_inv_239
  rw [show (5 : ℝ)⁻¹ = 1/5 by norm_num,
    show (239 : ℝ)⁻¹ = 1/239 by norm_num] at hmach
  norm_num at h5l h5u h239l h239u
  constructor <;> linarith [h5l, h5u, h239l, h239u, hmach]

/-- Rational enclosure of the logarithm of a literal in `(1, 2)`, written as
`w = 2(1-u)`: the Taylor series of `log(1-u)` through degree 10 plus the
decimal bounds on `log 2`. -/
theorem log_lit_enclose {w u : ℝ} (Slo Shi t : ℝ) (hw : w = 2 * (1 - u))
    (hu0 : 0 < u) (hu1 : u < 1 / 2)
    (hSlo : Slo ≤ ∑ i ∈ Finset.range 10, u ^ (i + 1) / (i + 1))
    (hShi : (∑ i ∈ Finset.range 10, u ^ (i + 1) / (i + 1)) ≤ Shi)
    (ht : u ^ 11 / (1 - u) ≤ t) :
    0.6931471803 - Shi - t ≤ Real.log w ∧
      Real.log w ≤ 0.6931471808 - Slo + t := by
  have habs := Real.abs_log_sub_add_sum_range_le
    (x := u) (by rw [abs_of_pos hu0]; linarith) 10
  rw [abs_of_pos hu0, abs_le] at habs
  have hlog : Real.log w = Real.log 2 + Real.log (1 - u) := by
    rw [hw, Real.log_mul two_ne_zero (by linarith)]
  have h2l := Real.log_two_gt_d9
  have h2u := Real.log_two_lt_d9
  constructor <;> [skip; skip] <;>
    · rw [hlog]
      have h1 := habs.1
      have h2 := habs.2
      linarith

/-! ## Claim C6: reference values of the positive Gooding branch -/

/-- The Gooding function state pinned by the staged unit tests:
`q = -0.402543`, `normalizedTimeOfFlight = 0.944749`. -/
noncomputable def referenceGoodingState : LambertFunctionsGooding :=
  ⟨-0.402543, 0.944749⟩

/-- Enclosure of `z(1.09806)` for the reference state. -/
theorem referenceZPositiveEnclosure :
    1.016532144831 ≤ referenceGoodingState.zParameter 1.09806 ∧
      referenceGoodingState.zParameter 1.09806 ≤ 1.016532144833 := by
  have harg : (1 : ℝ) - (-0.402543 : ℝ) ^ 2 + (-0.402543 : ℝ) ^ 2 * (1.09806 : ℝ) ^ 2 =
      1.0333376014755849408964 := by norm_num
  simp only [LambertFunctionsGooding.zParameter, referenceGoodingState]
  rw [harg]
  exact sqrt_enclose (by norm_num) (by norm_num) (by norm_num) (by norm_num)

/-- Enclosure of the positive-branch time of flight at the reference state
and `x = 1.09806`. -/
theorem referenceTimeOfFlightPositiveEnclosure :
    1.3451704049096 ≤ referenceGoodingState.timeOfFlightPositiveGooding 1.09806 ∧
      referenceGoodingState.timeOfFlightPositiveGooding 1.09806 ≤ 1.3451704157888 := by
  obtain ⟨hz1, hz2⟩ := referenceZPositiveEnclosure
  have hzpos : (0 : ℝ) < referenceGoodingState.zParameter 1.09806 := by linarith
  have hyE : ((1.09806 : ℝ) ^ 2 - 1) = 0.2057357636 := by norm_num
  have hy : (0.453581044136 : ℝ) ≤ Real.sqrt ((1.09806 : ℝ) ^ 2 - 1) ∧
      Real.sqrt ((1.09806 : ℝ) ^ 2 - 1) ≤ 0.453581044138 := by
    rw [hyE]
    exact sqrt_enclose (by norm_num) (by norm_num) (by norm_num) (by norm_num)
  obtain ⟨hy1, hy2⟩ := hy
  have hypos : (0 : ℝ) < Real.sqrt ((1.09806 : ℝ) ^ 2 - 1) := by linarith
  set z := referenceGoodingState.zParameter 1.09806 with hzdef
  set y := Real.sqrt ((1.09806 : ℝ) ^ 2 - 1) with hydef
  -- the factor z - q x
  have hA1 : (1.458548511411 : ℝ) ≤ z - (-0.402543 : ℝ) * 1.09806 := by
    have : (-0.402543 : ℝ) * 1.09806 = -0.44201636658 := by norm_num
    rw [this]; linarith
  have hA2 : z - (-0.402543 : ℝ) * 1.09806 ≤ 1.458548511413 := by
    have : (-0.402543 : ℝ) * 1.09806 = -0.44201636658 := by norm_num
    rw [this]; linarith
  -- f = y (z - qx)
  have hf1 : (0.6615699567288 : ℝ) ≤ y * (z - (-0.402543 : ℝ) * 1.09806) := by
    have := mul_le_mul hy1 hA1 (by norm_num) (by linarith)
    nlinarith [this]
  have hf2 : y * (z - (-0.402543 : ℝ) * 1.09806) ≤ 0.6615699567327 := by
    have := mul_le_mul hy2 hA2 (by linarith) (by linarith)
    nlinarith [this]
  -- g = x z - q E
  have hg1 : (1.1990307784399 : ℝ) ≤
      (1.09806 : ℝ) * z - (-0.402543 : ℝ) * ((1.09806 : ℝ) ^ 2 - 1) := by
    rw [hyE]
    nlinarith [hz1]
  have hg2 : (1.09806 : ℝ) * z - (-0.402543 : ℝ) * ((1.09806 : ℝ) ^ 2 - 1) ≤
      1.1990307784422 := by
    rw [hyE]
    nlinarith [hz2]
  -- w = f + g
  have hw1 : (1.860600735168 : ℝ) ≤
      y * (z - (-0.402543 : ℝ) * 1.09806) +
        ((1.09806 : ℝ) * z - (-0.402543 : ℝ) * ((1.09806 : ℝ) ^ 2 - 1)) := by
    linarith
  have hw2 : y * (z - (-0.402543 : ℝ) * 1.09806) +
      ((1.09806 : ℝ) * z - (-0.402543 : ℝ) * ((1.09806 : ℝ) ^ 2 - 1)) ≤
        1.860600735175 := by
    linarith
  -- log of the lower endpoint
  have hloglo := log_lit_enclose (w := 1.860600735168) (u := 0.069699632416)
    0.0722477690797 0.0722477690836 0.00000000000021
    (by norm_num) (by norm_num) (by norm_num)
    (by
      simp only [Finset.sum_range_succ, Finset.sum_range_zero]
      norm_num)
    (by
      simp only [Finset.sum_range_succ, Finset.sum_range_zero]
      norm_num)
    (by norm_num)
  have hloghi := log_lit_enclose (w := 1.860600735175) (u := 0.0696996324125)
    0.0722477690797 0.0722477690836 0.00000000000021
    (by norm_num) (by norm_num) (by norm_num)
    (by
      simp only [Finset.sum_range_succ, Finset.sum_range_zero]
      norm_num)
    (by
      simp only [Finset.sum_range_succ, Finset.sum_range_zero]
      norm_num)
    (by norm_num)
  -- d = log w enclosure
  have hd1 : (0.6208994112161 : ℝ) ≤
      Real.log (y * (z - (-0.402543 : ℝ) * 1.09806) +
        ((1.09806 : ℝ) * z - (-0.402543 : ℝ) * ((1.09806 : ℝ) ^ 2 - 1))) := by
    have hmono := Real.log_le_log (by norm_num : (0 : ℝ) < 1.860600735168) hw1
    have := hloglo.1
    linarith
  have hd2 : Real.log (y * (z - (-0.402543 : ℝ) * 1.09806) +
      ((1.09806 : ℝ) * z - (-0.402543 : ℝ) * ((1.09806 : ℝ) ^ 2 - 1))) ≤
        0.6208994117206 := by
    have hwpos : (0 : ℝ) < y * (z - (-0.402543 : ℝ) * 1.09806) +
        ((1.09806 : ℝ) * z - (-0.402543 : ℝ) * ((1.09806 : ℝ) ^ 2 - 1)) := by
      linarith
    have hmono := Real.log_le_log hwpos hw2
    have := hloghi.2
    linarith
  set d := Real.log (y * (z - (-0.402543 : ℝ) * 1.09806) +
      ((1.09806 : ℝ) * z - (-0.402543 : ℝ) * ((1.09806 : ℝ) ^ 2 - 1))) with hddef
  have hdpos : (0 : ℝ) < d := by linarith
  -- dy = d / y
  have hdy1 : (1.3688830678453 : ℝ) ≤ d / y := by
    calc (1.3688830678453 : ℝ) ≤ 0.6208994112161 / 0.453581044138 := by norm_num
    _ ≤ d / y := div_le_div₀ (by linarith) hd1 hypos hy2
  have hdy2 : d / y ≤ 1.3688830689636 := by
    calc d / y ≤ 0.6208994117206 / 0.453581044136 :=
          div_le_div₀ (by norm_num) hd2 (by norm_num) hy1
    _ ≤ 1.3688830689636 := by norm_num
  -- assemble T
  simp only [LambertFunctionsGooding.timeOfFlightPositiveGooding]
  rw [show referenceGoodingState.qParameter = (-0.402543 : ℝ) from rfl,
    ← hzdef, ← hydef, ← hddef]
  constructor
  · rw [hyE, le_div_iff (by norm_num : (0 : ℝ) < 0.2057357636)]
    linarith
  · rw [hyE, div_le_iff (by norm_num : (0 : ℝ) < 0.2057357636)]
    linarith

/-- C6.  At the Gooding function state `q = -0.402543`,
`normalizedTimeOfFlight = 0.944749` and shape parameter `x = 1.09806`, the
positive-branch Gooding Lambert function evaluates to `-0.4004214` and its
first derivative to `0.7261451`, each within relative tolerance `1e-6`, and
the combined dispatch functions return exactly these positive-branch values
at this `x`. -/
theorem lambertFunctionPositiveGoodingReferenceValues :
    |referenceGoodingState.lambertFunctionPositiveGooding 1.09806 - (-0.4004214)| ≤
      1e-6 * 0.4004214 ∧
    |referenceGoodingState.lambertFirstDerivativeFunctionPositiveGooding 1.09806 -
      0.7261451| ≤ 1e-6 * 0.7261451 ∧
    referenceGoodingState.computeLambertFunctionGooding 1.09806 =
      referenceGoodingState.lambertFunctionPositiveGooding 1.09806 ∧
    referenceGoodingState.computeFirstDerivativeLambertFunctionGooding 1.09806 =
      referenceGoodingState.lambertFirstDerivativeFunctionPositiveGooding 1.09806 := by
  obtain ⟨hT1, hT2⟩ := referenceTimeOfFlightPositiveEnclosure
  obtain ⟨hz1, hz2⟩ := referenceZPositiveEnclosure
  have hzpos : (0 : ℝ) < referenceGoodingState.zParameter 1.09806 := by linarith
  refine ⟨?_, ?_, ?_, ?_⟩
  · simp only [LambertFunctionsGooding.lambertFunctionPositiveGooding]
    rw [show referenceGoodingState.normalizedTimeOfFlight = (0.944749 : ℝ) from rfl,
      abs_le]
    constructor <;> linarith
  · simp only [LambertFunctionsGooding.lambertFirstDerivativeFunctionPositiveGooding]
    rw [show referenceGoodingState.qParameter = (-0.402543 : ℝ) from rfl]
    set z := referenceGoodingState.zParameter 1.09806 with hzdef
    have hnum : (4 : ℝ) * (-0.402543 : ℝ) ^ 3 * 1.09806 =
        -0.28649886080827421402568 := by norm_num
    rw [hnum]
    have hq1 : (0.28649886080827421402568 : ℝ) / z ≤
        0.28649886080827421402568 / 1.016532144831 :=
      div_le_div₀ (by norm_num) le_rfl (by norm_num) hz1
    have hq2 : (0.28649886080827421402568 : ℝ) / 1.016532144833 ≤
        0.28649886080827421402568 / z :=
      div_le_div₀ (by norm_num) le_rfl hzpos hz2
    have hneg : (-0.28649886080827421402568 : ℝ) / z =
        -(0.28649886080827421402568 / z) := by rw [neg_div]
    rw [hneg, show ((1.09806 : ℝ) ^ 2 - 1) = 0.2057357636 by norm_num, abs_le]
    have hql : (0.2818394501979 : ℝ) ≤ 0.28649886080827421402568 / z := by
      calc (0.2818394501979 : ℝ) ≤ 0.28649886080827421402568 / 1.016532144833 := by
            norm_num
      _ ≤ _ := hq2
    have hqh : (0.28649886080827421402568 : ℝ) / z ≤ 0.2818394501986 := by
      refine le_trans hq1 (by norm_num)
    have hdres1 : (0.7261449911886 : ℝ) ≤
        (3 * 1.09806 * referenceGoodingState.timeOfFlightPositiveGooding 1.09806 +
          -(0.28649886080827421402568 / z) - 4) / 0.2057357636 := by
      rw [le_div_iff₀ (by norm_num : (0 : ℝ) < 0.2057357636)]
      linarith
    have hdres2 : (3 * 1.09806 * referenceGoodingState.timeOfFlightPositiveGooding 1.09806 +
        -(0.28649886080827421402568 / z) - 4) / 0.2057357636 ≤ 0.7261451653866 := by
      rw [div_le_iff₀ (by norm_num : (0 : ℝ) < 0.2057357636)]
      linarith
    constructor <;> linarith
  · rw [LambertFunctionsGooding.computeLambertFunctionGooding,
      if_pos (by norm_num : (1 : ℝ) ≤ 1.09806)]
  · rw [LambertFunctionsGooding.computeFirstDerivativeLambertFunctionGooding,
      if_pos (by norm_num : (1 : ℝ) ≤ 1.09806)]

/-! ## Claim C10: reference values of the negative Gooding branch -/

/-- Enclosure of `z(0.434564)` for the reference state. -/
theorem referenceZNegativeEnclosure :
    0.931965601104 ≤ referenceGoodingState.zParameter 0.434564 ∧
      referenceGoodingState.zParameter 0.434564 ≤ 0.931965601106 := by
  have harg : (1 : ℝ) - (-0.402543 : ℝ) ^ 2 + (-0.402543 : ℝ) ^ 2 * (0.434564 : ℝ) ^ 2 =
      0.868559881642209486847504 := by norm_num
  simp only [LambertFunctionsGooding.zParameter, referenceGoodingState]
  rw [harg]
  exact sqrt_enclose (by norm_num) (by norm_num) (by norm_num) (by norm_num)

/-- Enclosure of the negative-branch time of flight at the reference state
and `x = 0.434564`. -/
theorem referenceTimeOfFlightNegativeEnclosure :
    2.0887415307373 ≤ referenceGoodingState.timeOfFlightNegativeGooding 0.434564 ∧
      referenceGoodingState.timeOfFlightNegativeGooding 0.434564 ≤ 2.0887415322582 := by
  obtain ⟨hz1, hz2⟩ := referenceZNegativeEnclosure
  have hzpos : (0 : ℝ) < referenceGoodingState.zParameter 0.434564 := by linarith
  have hyE : (1 : ℝ) - (0.434564 : ℝ) ^ 2 = 0.811154129904 := by norm_num
  have hy : (0.900640955044 : ℝ) ≤ Real.sqrt ((1 : ℝ) - (0.434564 : ℝ) ^ 2) ∧
      Real.sqrt ((1 : ℝ) - (0.434564 : ℝ) ^ 2) ≤ 0.900640955046 := by
    rw [hyE]
    exact sqrt_enclose (by norm_num) (by norm_num) (by norm_num) (by norm_num)
  obtain ⟨hy1, hy2⟩ := hy
  have hypos : (0 : ℝ) < Real.sqrt ((1 : ℝ) - (0.434564 : ℝ) ^ 2) := by linarith
  set z := referenceGoodingState.zParameter 0.434564 with hzdef
  set y := Real.sqrt ((1 : ℝ) - (0.434564 : ℝ) ^ 2) with hydef
  -- f = y (z - q x)
  have hA1 : (1.106896297356 : ℝ) ≤ z - (-0.402543 : ℝ) * 0.434564 := by
    have : (-0.402543 : ℝ) * 0.434564 = -0.174930696252 := by norm_num
    rw [this]; linarith
  have hA2 : z - (-0.402543 : ℝ) * 0.434564 ≤ 1.106896297358 := by
    have : (-0.402543 : ℝ) * 0.434564 = -0.174930696252 := by norm_num
    rw [this]; linarith
  have hf1 : (0.9969161383853 : ℝ) ≤ y * (z - (-0.402543 : ℝ) * 0.434564) := by
    have := mul_le_mul hy1 hA1 (by norm_num) (by linarith)
    nlinarith [this]
  have hf2 : y * (z - (-0.402543 : ℝ) * 0.434564) ≤ 0.9969161383894 := by
    have := mul_le_mul hy2 hA2 (by linarith) (by linarith)
    nlinarith [this]
  have hfpos : (0 : ℝ) < y * (z - (-0.402543 : ℝ) * 0.434564) := by linarith
  -- g = x z - q E
  have hg1 : (0.0784742825642 : ℝ) ≤
      (0.434564 : ℝ) * z - (-0.402543 : ℝ) * ((0.434564 : ℝ) ^ 2 - 1) := by
    have : (-0.402543 : ℝ) * ((0.434564 : ℝ) ^ 2 - 1) = 0.326524416913945872 := by
      norm_num
    rw [this]
    nlinarith [hz1]
  have hg2 : (0.434564 : ℝ) * z - (-0.402543 : ℝ) * ((0.434564 : ℝ) ^ 2 - 1) ≤
      0.0784742825651 := by
    have : (-0.402543 : ℝ) * ((0.434564 : ℝ) ^ 2 - 1) = 0.326524416913945872 := by
      norm_num
    rw [this]
    nlinarith [hz2]
  have hgpos : (0 : ℝ) <
      (0.434564 : ℝ) * z - (-0.402543 : ℝ) * ((0.434564 : ℝ) ^ 2 - 1) := by
    linarith
  set fv := y * (z - (-0.402543 : ℝ) * 0.434564) with hfdef
  set gv := (0.434564 : ℝ) * z - (-0.402543 : ℝ) * ((0.434564 : ℝ) ^ 2 - 1) with hgdef
  -- t = g / f
  have ht1 : (0.0787170350065 : ℝ) ≤ gv / fv := by
    calc (0.0787170350065 : ℝ) ≤ 0.0784742825642 / 0.9969161383894 := by norm_num
    _ ≤ gv / fv := div_le_div₀ (by linarith) hg1 (by linarith) hf2
  have ht2 : gv / fv ≤ 0.0787170350078 := by
    calc gv / fv ≤ 0.0784742825651 / 0.9969161383853 :=
          div_le_div₀ (by norm_num) hg2 (by norm_num) hf1
    _ ≤ 0.0787170350078 := by norm_num
  have htpos : (0 : ℝ) < gv / fv := by linarith
  -- arctan (g/f) enclosure via the Taylor bounds
  have hat1 : (0.0785550501456 : ℝ) ≤ Real.arctan (gv / fv) := by
    have hmono := Real.arctan_strictMono.monotone ht1
    have hser := arctan_taylor_lower (x := (0.0787170350065 : ℝ)) (by norm_num)
    have hpoly : (0.0785550501456 : ℝ) ≤
        (0.0787170350065 : ℝ) - 0.0787170350065 ^ 3 / 3 + 0.0787170350065 ^ 5 / 5 -
          0.0787170350065 ^ 7 / 7 + 0.0787170350065 ^ 9 / 9 -
          0.0787170350065 ^ 11 / 11 := by norm_num
    linarith
  have hat2 : Real.arctan (gv / fv) ≤ 0.078555050147 := by
    have hmono := Real.arctan_strictMono.monotone ht2
    have hser := arctan_taylor_upper (x := (0.0787170350078 : ℝ)) (by norm_num)
    have hpoly : (0.0787170350078 : ℝ) - 0.0787170350078 ^ 3 / 3 +
        0.0787170350078 ^ 5 / 5 - 0.0787170350078 ^ 7 / 7 + 0.0787170350078 ^ 9 / 9 -
          0.0787170350078 ^ 11 / 11 + 0.0787170350078 ^ 13 / 13 ≤
        0.078555050147 := by norm_num
    linarith
  -- d = atan2 f g = π/2 - arctan (g/f)
  have hdeq : atan2 fv gv = π / 2 - Real.arctan (gv / fv) := by
    rw [atan2, if_pos hgpos]
    have hfg : fv / gv = (gv / fv)⁻¹ := by rw [inv_div]
    rw [hfg, Real.arctan_inv_of_pos htpos]
  obtain ⟨hpi1, hpi2⟩ := pi_tight_bounds
  have hd1 : (1.492241276153 : ℝ) ≤ atan2 fv gv := by rw [hdeq]; linarith
  have hd2 : atan2 fv gv ≤ 1.4922412767044 := by rw [hdeq]; linarith
  have hdpos : (0 : ℝ) < atan2 fv gv := by linarith
  -- dy = d / y
  have hdy1 : (1.6568658884458 : ℝ) ≤ atan2 fv gv / y := by
    calc (1.6568658884458 : ℝ) ≤ 1.492241276153 / 0.900640955046 := by norm_num
    _ ≤ atan2 fv gv / y := div_le_div₀ (by linarith) hd1 hypos hy2
  have hdy2 : atan2 fv gv / y ≤ 1.6568658890618 := by
    calc atan2 fv gv / y ≤ 1.4922412767044 / 0.900640955044 :=
          div_le_div₀ (by norm_num) hd2 (by norm_num) hy1
    _ ≤ 1.6568658890618 := by norm_num
  -- assemble T over the negative denominator x² - 1
  simp only [LambertFunctionsGooding.timeOfFlightNegativeGooding]
  rw [show referenceGoodingState.qParameter = (-0.402543 : ℝ) from rfl,
    ← hzdef, ← hydef, ← hfdef, ← hgdef]
  have hEneg : ((0.434564 : ℝ) ^ 2 - 1) = -0.811154129904 := by norm_num
  rw [hEneg]
  constructor
  · rw [le_div_iff_of_neg (by norm_num : (-0.811154129904 : ℝ) < 0)]
    linarith
  · rw [div_le_iff_of_neg (by norm_num : (-0.811154129904 : ℝ) < 0)]
    linarith

/-- C10.  At the Gooding function state `q = -0.402543`,
`normalizedTimeOfFlight = 0.944749` and shape parameter `x = 0.434564`, the
negative-branch Gooding Lambert function evaluates to `-1.1439925` and its
first derivative to `1.72419`, each within relative tolerance `1e-6`, and the
combined dispatch functions return exactly these negative-branch values at
this `x`. -/
theorem lambertFunctionNegativeGoodingReferenceValues :
    |referenceGoodingState.lambertFunctionNegativeGooding 0.434564 - (-1.1439925)| ≤
      1e-6 * 1.1439925 ∧
    |referenceGoodingState.lambertFirstDerivativeFunctionNegativeGooding 0.434564 -
      1.72419| ≤ 1e-6 * 1.72419 ∧
    referenceGoodingState.computeLambertFunctionGooding 0.434564 =
      referenceGoodingState.lambertFunctionNegativeGooding 0.434564 ∧
    referenceGoodingState.computeFirstDerivativeLambertFunctionGooding 0.434564 =
      referenceGoodingState.lambertFirstDerivativeFunctionNegativeGooding 0.434564 := by
  obtain ⟨hT1, hT2⟩ := referenceTimeOfFlightNegativeEnclosure
  obtain ⟨hz1, hz2⟩ := referenceZNegativeEnclosure
  have hzpos : (0 : ℝ) < referenceGoodingState.zParameter 0.434564 := by linarith
  refine ⟨?_, ?_, ?_, ?_⟩
  · simp only [LambertFunctionsGooding.lambertFunctionNegativeGooding]
    rw [show referenceGoodingState.normalizedTimeOfFlight = (0.944749 : ℝ) from rfl,
      abs_le]
    constructor <;> linarith
  · simp only [LambertFunctionsGooding.lambertFirstDerivativeFunctionNegativeGooding]
    rw [show referenceGoodingState.qParameter = (-0.402543 : ℝ) from rfl]
    set z := referenceGoodingState.zParameter 0.434564 with hzdef
    have hnum : (4 : ℝ) * (-0.402543 : ℝ) ^ 3 * 0.434564 =
        -0.113383686636692781399792 := by norm_num
    rw [hnum]
    have hq1 : (0.113383686636692781399792 : ℝ) / z ≤
        0.113383686636692781399792 / 0.931965601104 :=
      div_le_div₀ (by norm_num) le_rfl (by norm_num) hz1
    have hq2 : (0.113383686636692781399792 : ℝ) / 0.931965601106 ≤
        0.113383686636692781399792 / z :=
      div_le_div₀ (by norm_num) le_rfl hzpos hz2
    have hneg : (-0.113383686636692781399792 : ℝ) / z =
        -(0.113383686636692781399792 / z) := by rw [neg_div]
    rw [hneg, show ((0.434564 : ℝ) ^ 2 - 1) = -0.811154129904 by norm_num, abs_le]
    have hql : (0.1216608064741 : ℝ) ≤ 0.113383686636692781399792 / z := by
      calc (0.1216608064741 : ℝ) ≤ 0.113383686636692781399792 / 0.931965601106 := by
            norm_num
      _ ≤ _ := hq2
    have hqh : (0.113383686636692781399792 : ℝ) / z ≤ 0.1216608064744 :=
      le_trans hq1 (by norm_num)
    have hdres1 : (1.724191653893 : ℝ) ≤
        (3 * 0.434564 * referenceGoodingState.timeOfFlightNegativeGooding 0.434564 +
          -(0.113383686636692781399792 / z) - 4) / (-0.811154129904) := by
      rw [le_div_iff_of_neg (by norm_num : (-0.811154129904 : ℝ) < 0)]
      linarith
    have hdres2 : (3 * 0.434564 * referenceGoodingState.timeOfFlightNegativeGooding 0.434564 +
          -(0.113383686636692781399792 / z) - 4) / (-0.811154129904) ≤
        1.7241916563379 := by
      rw [div_le_iff_of_neg (by norm_num : (-0.811154129904 : ℝ) < 0)]
      linarith
    constructor <;> linarith
  · rw [LambertFunctionsGooding.computeLambertFunctionGooding,
      if_neg (by norm_num : ¬ (1 : ℝ) ≤ 0.434564)]
  · rw [LambertFunctionsGooding.computeFirstDerivativeLambertFunctionGooding,
      if_neg (by norm_num : ¬ (1 : ℝ) ≤ 0.434564)]

/-! ## Taylor ladder for sine and cosine on the nonnegative reals -/

/-- Functions vanishing at zero with derivative nonnegative on the
nonnegative reals are nonnegative there. -/
theorem nonneg_of_hasDerivAt_nonneg {F G : ℝ → ℝ}
    (hder : ∀ t, HasDerivAt F (G t) t) (h0 : F 0 = 0)
    (hpos : ∀ t, 0 ≤ t → 0 ≤ G t) {x : ℝ} (hx : 0 ≤ x) : 0 ≤ F x := by
  have hmono : MonotoneOn F (Set.Ici 0) := by
    refine monotoneOn_of_deriv_nonneg (convex_Ici 0) ?_ ?_ ?_
    · exact Continuous.continuousOn (by
        refine continuous_iff_continuousAt.2 ?_
        intro t
        exact (hder t).differentiableAt.continuousAt)
    · intro t _
      exact (hder t).differentiableAt.differentiableWithinAt
    · intro t ht
      rw [(hder t).deriv]
      rw [interior_Ici] at ht
      exact hpos t (le_of_lt ht)
  have h := hmono Set.left_mem_Ici (Set.mem_Ici.mpr hx) hx
  rw [h0] at h
  exact h


/-- Degree-1 upper Taylor bound of the sine. -/
theorem sin_taylor_up1 {x : ℝ} (hx : 0 ≤ x) : Real.sin x ≤ x := by
  have key := nonneg_of_hasDerivAt_nonneg
    (F := fun t : ℝ => (t) - Real.sin t)
    (G := fun t : ℝ => (1) - Real.cos t)
    (fun t => by
      have h1 := (hasDerivAt_id t).sub (Real.hasDerivAt_sin t)
      convert h1 using 1 <;> (push_cast; ring))
    (by norm_num)
    (fun t ht => by
      show (0 : ℝ) ≤ (1) - Real.cos t
      nlinarith [Real.cos_le_one t])
    hx
  have key2 : (0 : ℝ) ≤ (x) - Real.sin x := key
  linarith

/-- Degree-2 lower Taylor bound of the cosine. -/
theorem cos_taylor_lo2 {x : ℝ} (hx : 0 ≤ x) : 1 - x ^ 2 / 2 ≤ Real.cos x := by
  have key := nonneg_of_hasDerivAt_nonneg
    (F := fun t : ℝ => Real.cos t - (1 - t ^ 2 / 2))
    (G := fun t : ℝ => (t) - Real.sin t)
    (fun t => by
      have h1 := (Real.hasDerivAt_cos t).sub (((hasDerivAt_pow 2 t).div_const 2).const_sub 1)
      convert h1 using 1 <;> (push_cast; ring))
    (by norm_num)
    (fun t ht => by
      show (0 : ℝ) ≤ (t) - Real.sin t
      linarith [sin_taylor_up1 ht])
    hx
  have key2 : (0 : ℝ) ≤ Real.cos x - (1 - x ^ 2 / 2) := key
  linarith

/-- Degree-3 lower Taylor bound of the sine. -/
theorem sin_taylor_lo3 {x : ℝ} (hx : 0 ≤ x) : x - x ^ 3 / 6 ≤ Real.sin x := by
  have key := nonneg_of_hasDerivAt_nonneg
    (F := fun t : ℝ => Real.sin t - (t - t ^ 3 / 6))
    (G := fun t : ℝ => Real.cos t - (1 - t ^ 2 / 2))
    (fun t => by
      have h1 := (Real.hasDerivAt_sin t).sub ((hasDerivAt_id t).sub ((hasDerivAt_pow 3 t).div_const 6))
      convert h1 using 1 <;> (push_cast; ring))
    (by norm_num)
    (fun t ht => by
      show (0 : ℝ) ≤ Real.cos t - (1 - t ^ 2 / 2)
      linarith [cos_taylor_lo2 ht])
    hx
  have key2 : (0 : ℝ) ≤ Real.sin x - (x - x ^ 3 / 6) := key
  linarith

/-- Degree-4 upper Taylor bound of the cosine. -/
theorem cos_taylor_up4 {x : ℝ} (hx : 0 ≤ x) : Real.cos x ≤ 1 - x ^ 2 / 2 + x ^ 4 / 24 := by
  have key := nonneg_of_hasDerivAt_nonneg
    (F := fun t : ℝ => (1 - t ^ 2 / 2 + t ^ 4 / 24) - Real.cos t)
    (G := fun t : ℝ => Real.sin t - (t - t ^ 3 / 6))
    (fun t => by
      have h1 := ((((hasDerivAt_pow 2 t).div_const 2).const_sub 1).add ((hasDerivAt_pow 4 t).div_const 24)).sub (Real.hasDerivAt_cos t)
      convert h1 using 1 <;> (push_cast; ring))
    (by norm_num)
    (fun t ht => by
      show (0 : ℝ) ≤ Real.sin t - (t - t ^ 3 / 6)
      linarith [sin_taylor_lo3 ht])
    hx
  have key2 : (0 : ℝ) ≤ (1 - x ^ 2 / 2 + x ^ 4 / 24) - Real.cos x := key
  linarith

/-- Degree-5 upper Taylor bound of the sine. -/
theorem sin_taylor_up5 {x : ℝ} (hx : 0 ≤ x) : Real.sin x ≤ x - x ^ 3 / 6 + x ^ 5 / 120 := by
  have key := nonneg_of_hasDerivAt_nonneg
    (F := fun t : ℝ => (t - t ^ 3 / 6 + t ^ 5 / 120) - Real.sin t)
    (G := fun t : ℝ => (1 - t ^ 2 / 2 + t ^ 4 / 24) - Real.cos t)
    (fun t => by
      have h1 := (((hasDerivAt_id t).sub ((hasDerivAt_pow 3 t).div_const 6)).add ((hasDerivAt_pow 5 t).div_const 120)).sub (Real.hasDerivAt_sin t)
      convert h1 using 1 <;> (push_cast; ring))
    (by norm_num)
    (fun t ht => by
      show (0 : ℝ) ≤ (1 - t ^ 2 / 2 + t ^ 4 / 24) - Real.cos t
      linarith [cos_taylor_up4 ht])
    hx
  have key2 : (0 : ℝ) ≤ (x - x ^ 3 / 6 + x ^ 5 / 120) - Real.sin x := key
  linarith

/-- Degree-6 lower Taylor bound of the cosine. -/
theorem cos_taylor_lo6 {x : ℝ} (hx : 0 ≤ x) : 1 - x ^ 2 / 2 + x ^ 4 / 24 - x ^ 6 / 720 ≤ Real.cos x := by
  have key := nonneg_of_hasDerivAt_nonneg
    (F := fun t : ℝ => Real.cos t - (1 - t ^ 2 / 2 + t ^ 4 / 24 - t ^ 6 / 720))
    (G := fun t : ℝ => (t - t ^ 3 / 6 + t ^ 5 / 120) - Real.sin t)
    (fun t => by
      have h1 := (Real.hasDerivAt_cos t).sub (((((hasDerivAt_pow 2 t).div_const 2).const_sub 1).add ((hasDerivAt_pow 4 t).div_const 24)).sub ((hasDerivAt_pow 6 t).div_const 720))
      convert h1 using 1 <;> (push_cast; ring))
    (by norm_num)
    (fun t ht => by
      show (0 : ℝ) ≤ (t - t ^ 3 / 6 + t ^ 5 / 120) - Real.sin t
      linarith [sin_taylor_up5 ht])
    hx
  have key2 : (0 : ℝ) ≤ Real.cos x - (1 - x ^ 2 / 2 + x ^ 4 / 24 - x ^ 6 / 720) := key
  linarith

/-- Degree-7 lower Taylor bound of the sine. -/
theorem sin_taylor_lo7 {x : ℝ} (hx : 0 ≤ x) : x - x ^ 3 / 6 + x ^ 5 / 120 - x ^ 7 / 5040 ≤ Real.sin x := by
  have key := nonneg_of_hasDerivAt_nonneg
    (F := fun t : ℝ => Real.sin t - (t - t ^ 3 / 6 + t ^ 5 / 120 - t ^ 7 / 5040))
    (G := fun t : ℝ => Real.cos t - (1 - t ^ 2 / 2 + t ^ 4 / 24 - t ^ 6 / 720))
    (fun t => by
      have h1 := (Real.hasDerivAt_sin t).sub ((((hasDerivAt_id t).sub ((hasDerivAt_pow 3 t).div_const 6)).add ((hasDerivAt_pow 5 t).div_const 120)).sub ((hasDerivAt_pow 7 t).div_const 5040))
      convert h1 using 1 <;> (push_cast; ring))
    (by norm_num)
    (fun t ht => by
      show (0 : ℝ) ≤ Real.cos t - (1 - t ^ 2 / 2 + t ^ 4 / 24 - t ^ 6 / 720)
      linarith [cos_taylor_lo6 ht])
    hx
  have key2 : (0 : ℝ) ≤ Real.sin x - (x - x ^ 3 / 6 + x ^ 5 / 120 - x ^ 7 / 5040) := key
  linarith

/-- Degree-8 upper Taylor bound of the cosine. -/
theorem cos_taylor_up8 {x : ℝ} (hx : 0 ≤ x) : Real.cos x ≤ 1 - x ^ 2 / 2 + x ^ 4 / 24 - x ^ 6 / 720 + x ^ 8 / 40320 := by
  have key := nonneg_of_hasDerivAt_nonneg
    (F := fun t : ℝ => (1 - t ^ 2 / 2 + t ^ 4 / 24 - t ^ 6 / 720 + t ^ 8 / 40320) - Real.cos t)
    (G := fun t : ℝ => Real.sin t - (t - t ^ 3 / 6 + t ^ 5 / 120 - t ^ 7 / 5040))
    (fun t => by
      have h1 := ((((((hasDerivAt_pow 2 t).div_const 2).const_sub 1).add ((hasDerivAt_pow 4 t).div_const 24)).sub ((hasDerivAt_pow 6 t).div_const 720)).add ((hasDerivAt_pow 8 t).div_const 40320)).sub (Real.hasDerivAt_cos t)
      convert h1 using 1 <;> (push_cast; ring))
    (by norm_num)
    (fun t ht => by
      show (0 : ℝ) ≤ Real.sin t - (t - t ^ 3 / 6 + t ^ 5 / 120 - t ^ 7 / 5040)
      linarith [sin_taylor_lo7 ht])
    hx
  have key2 : (0 : ℝ) ≤ (1 - x ^ 2 / 2 + x ^ 4 / 24 - x ^ 6 / 720 + x ^ 8 / 40320) - Real.cos x := key
  linarith

/-- Degree-9 upper Taylor bound of the sine. -/
theorem sin_taylor_up9 {x : ℝ} (hx : 0 ≤ x) : Real.sin x ≤ x - x ^ 3 / 6 + x ^ 5 / 120 - x ^ 7 / 5040 + x ^ 9 / 362880 := by
  have key := nonneg_of_hasDerivAt_nonneg
    (F := fun t : ℝ => (t - t ^ 3 / 6 + t ^ 5 / 120 - t ^ 7 / 5040 + t ^ 9 / 362880) - Real.sin t)
    (G := fun t : ℝ => (1 - t ^ 2 / 2 + t ^ 4 / 24 - t ^ 6 / 720 + t ^ 8 / 40320) - Real.cos t)
    (fun t => by
      have h1 := (((((hasDerivAt_id t).sub ((hasDerivAt_pow 3 t).div_const 6)).add ((hasDerivAt_pow 5 t).div_const 120)).sub ((hasDerivAt_pow 7 t).div_const 5040)).add ((hasDerivAt_pow 9 t).div_const 362880)).sub (Real.hasDerivAt_sin t)
      convert h1 using 1 <;> (push_cast; ring))
    (by norm_num)
    (fun t ht => by
      show (0 : ℝ) ≤ (1 - t ^ 2 / 2 + t ^ 4 / 24 - t ^ 6 / 720 + t ^ 8 / 40320) - Real.cos t
      linarith [cos_taylor_up8 ht])
    hx
  have key2 : (0 : ℝ) ≤ (x - x ^ 3 / 6 + x ^ 5 / 120 - x ^ 7 / 5040 + x ^ 9 / 362880) - Real.sin x := key
  linarith

/-- Degree-10 lower Taylor bound of the cosine. -/
theorem cos_taylor_lo10 {x : ℝ} (hx : 0 ≤ x) : 1 - x ^ 2 / 2 + x ^ 4 / 24 - x ^ 6 / 720 + x ^ 8 / 40320 - x ^ 10 / 3628800 ≤ Real.cos x := by
  have key := nonneg_of_hasDerivAt_nonneg
    (F := fun t : ℝ => Real.cos t - (1 - t ^ 2 / 2 + t ^ 4 / 24 - t ^ 6 / 720 + t ^ 8 / 40320 - t ^ 10 / 3628800))
    (G := fun t : ℝ => (t - t ^ 3 / 6 + t ^ 5 / 120 - t ^ 7 / 5040 + t ^ 9 / 362880) - Real.sin t)
    (fun t => by
      have h1 := (Real.hasDerivAt_cos t).sub (((((((hasDerivAt_pow 2 t).div_const 2).const_sub 1).add ((hasDerivAt_pow 4 t).div_const 24)).sub ((hasDerivAt_pow 6 t).div_const 720)).add ((hasDerivAt_pow 8 t).div_const 40320)).sub ((hasDerivAt_pow 10 t).div_const 3628800))
      convert h1 using 1 <;> (push_cast; ring))
    (by norm_num)
    (fun t ht => by
      show (0 : ℝ) ≤ (t - t ^ 3 / 6 + t ^ 5 / 120 - t ^ 7 / 5040 + t ^ 9 / 362880) - Real.sin t
      linarith [sin_taylor_up9 ht])
    hx
  have key2 : (0 : ℝ) ≤ Real.cos x - (1 - x ^ 2 / 2 + x ^ 4 / 24 - x ^ 6 / 720 + x ^ 8 / 40320 - x ^ 10 / 3628800) := key
  linarith

/-- Degree-11 lower Taylor bound of the sine. -/
theorem sin_taylor_lo11 {x : ℝ} (hx : 0 ≤ x) : x - x ^ 3 / 6 + x ^ 5 / 120 - x ^ 7 / 5040 + x ^ 9 / 362880 - x ^ 11 / 39916800 ≤ Real.sin x := by
  have key := nonneg_of_hasDerivAt_nonneg
    (F := fun t : ℝ => Real.sin t - (t - t ^ 3 / 6 + t ^ 5 / 120 - t ^ 7 / 5040 + t ^ 9 / 362880 - t ^ 11 / 39916800))
    (G := fun t : ℝ => Real.cos t - (1 - t ^ 2 / 2 + t ^ 4 / 24 - t ^ 6 / 720 + t ^ 8 / 40320 - t ^ 10 / 3628800))
    (fun t => by
      have h1 := (Real.hasDerivAt_sin t).sub ((((((hasDerivAt_id t).sub ((hasDerivAt_pow 3 t).div_const 6)).add ((hasDerivAt_pow 5 t).div_const 120)).sub ((hasDerivAt_pow 7 t).div_const 5040)).add ((hasDerivAt_pow 9 t).div_const 362880)).sub ((hasDerivAt_pow 11 t).div_const 39916800))
      convert h1 using 1 <;> (push_cast; ring))
    (by norm_num)
    (fun t ht => by
      show (0 : ℝ) ≤ Real.cos t - (1 - t ^ 2 / 2 + t ^ 4 / 24 - t ^ 6 / 720 + t ^ 8 / 40320 - t ^ 10 / 3628800)
      linarith [cos_taylor_lo10 ht])
    hx
  have key2 : (0 : ℝ) ≤ Real.sin x - (x - x ^ 3 / 6 + x ^ 5 / 120 - x ^ 7 / 5040 + x ^ 9 / 362880 - x ^ 11 / 39916800) := key
  linarith

/-- Degree-12 upper Taylor bound of the cosine. -/
theorem cos_taylor_up12 {x : ℝ} (hx : 0 ≤ x) : Real.cos x ≤ 1 - x ^ 2 / 2 + x ^ 4 / 24 - x ^ 6 / 720 + x ^ 8 / 40320 - x ^ 10 / 3628800 + x ^ 12 / 479001600 := by
  have key := nonneg_of_hasDerivAt_nonneg
    (F := fun t : ℝ => (1 - t ^ 2 / 2 + t ^ 4 / 24 - t ^ 6 / 720 + t ^ 8 / 40320 - t ^ 10 / 3628800 + t ^ 12 / 479001600) - Real.cos t)
    (G := fun t : ℝ => Real.sin t - (t - t ^ 3 / 6 + t ^ 5 / 120 - t ^ 7 / 5040 + t ^ 9 / 362880 - t ^ 11 / 39916800))
    (fun t => by
      have h1 := ((((((((hasDerivAt_pow 2 t).div_const 2).const_sub 1).add ((hasDerivAt_pow 4 t).div_const 24)).sub ((hasDerivAt_pow 6 t).div_const 720)).add ((hasDerivAt_pow 8 t).div_const 40320)).sub ((hasDerivAt_pow 10 t).div_const 3628800)).add ((hasDerivAt_pow 12 t).div_const 479001600)).sub (Real.hasDerivAt_cos t)
      convert h1 using 1 <;> (push_cast; ring))
    (by norm_num)
    (fun t ht => by
      show (0 : ℝ) ≤ Real.sin t - (t - t ^ 3 / 6 + t ^ 5 / 120 - t ^ 7 / 5040 + t ^ 9 / 362880 - t ^ 11 / 39916800)
      linarith [sin_taylor_lo11 ht])
    hx
  have key2 : (0 : ℝ) ≤ (1 - x ^ 2 / 2 + x ^ 4 / 24 - x ^ 6 / 720 + x ^ 8 / 40320 - x ^ 10 / 3628800 + x ^ 12 / 479001600) - Real.cos x := key
  linarith

/-- Degree-13 upper Taylor bound of the sine. -/
theorem sin_taylor_up13 {x : ℝ} (hx : 0 ≤ x) : Real.sin x ≤ x - x ^ 3 / 6 + x ^ 5 / 120 - x ^ 7 / 5040 + x ^ 9 / 362880 - x ^ 11 / 39916800 + x ^ 13 / 6227020800 := by
  have key := nonneg_of_hasDerivAt_nonneg
    (F := fun t : ℝ => (t - t ^ 3 / 6 + t ^ 5 / 120 - t ^ 7 / 5040 + t ^ 9 / 362880 - t ^ 11 / 39916800 + t ^ 13 / 6227020800) - Real.sin t)
    (G := fun t : ℝ => (1 - t ^ 2 / 2 + t ^ 4 / 24 - t ^ 6 / 720 + t ^ 8 / 40320 - t ^ 10 / 3628800 + t ^ 12 / 479001600) - Real.cos t)
    (fun t => by
      have h1 := (((((((hasDerivAt_id t).sub ((hasDerivAt_pow 3 t).div_const 6)).add ((hasDerivAt_pow 5 t).div_const 120)).sub ((hasDerivAt_pow 7 t).div_const 5040)).add ((hasDerivAt_pow 9 t).div_const 362880)).sub ((hasDerivAt_pow 11 t).div_const 39916800)).add ((hasDerivAt_pow 13 t).div_const 6227020800)).sub (Real.hasDerivAt_sin t)
      convert h1 using 1 <;> (push_cast; ring))
    (by norm_num)
    (fun t ht => by
      show (0 : ℝ) ≤ (1 - t ^ 2 / 2 + t ^ 4 / 24 - t ^ 6 / 720 + t ^ 8 / 40320 - t ^ 10 / 3628800 + t ^ 12 / 479001600) - Real.cos t
      linarith [cos_taylor_up12 ht])
    hx
  have key2 : (0 : ℝ) ≤ (x - x ^ 3 / 6 + x ^ 5 / 120 - x ^ 7 / 5040 + x ^ 9 / 362880 - x ^ 11 / 39916800 + x ^ 13 / 6227020800) - Real.sin x := key
  linarith

/-- Enclosure of the arcsine between two angles with certified sines. -/
theorem arcsin_enclose {y lo hi : ℝ} (hlo1 : -(π / 2) ≤ lo) (hlo2 : lo ≤ π / 2)
    (hhi1 : -(π / 2) ≤ hi) (hhi2 : hi ≤ π / 2)
    (h1 : Real.sin lo ≤ y) (h2 : y ≤ Real.sin hi) :
    lo ≤ Real.arcsin y ∧ Real.arcsin y ≤ hi := by
  constructor
  · have h := Real.monotone_arcsin h1
    rwa [Real.arcsin_sin hlo1 hlo2] at h
  · have h := Real.monotone_arcsin h2
    rwa [Real.arcsin_sin hhi1 hhi2] at h

/-- The square root of a recognized square. -/
theorem sqrt_eq_of_sq_eq {r v : ℝ} (h0 : 0 ≤ v) (h : v ^ 2 = r) :
    Real.sqrt r = v := by
  rw [← h, Real.sqrt_sq h0]

/-- Enclosure of `√3`. -/
theorem sqrt_three_enclose :
    (1.7320508075688 : ℝ) ≤ Real.sqrt 3 ∧ Real.sqrt 3 ≤ 1.7320508075690 :=
  sqrt_enclose (by norm_num) (by norm_num) (by norm_num) (by norm_num)

/-- Enclosure of `√2`. -/
theorem sqrt_two_enclose :
    (1.4142135623730 : ℝ) ≤ Real.sqrt 2 ∧ Real.sqrt 2 ≤ 1.4142135623732 :=
  sqrt_enclose (by norm_num) (by norm_num) (by norm_num) (by norm_num)

/-! ## Claim C1: the elliptical Earth-relative reference transfer -/

/-- Departure position of the staged elliptical reference scenario:
`(2·6378136, 0, 0)` metres. -/
noncomputable def ellipticalDeparturePosition : Vec3 := ⟨12756272, 0, 0⟩

/-- Arrival position of the staged elliptical reference scenario:
`(2·6378136, 2·√3·6378136, 0)` metres. -/
noncomputable def ellipticalArrivalPosition : Vec3 :=
  ⟨12756272, Real.sqrt 3 * 12756272, 0⟩

/-- The transfer geometry of the elliptical reference scenario, written out:
radii `2·6378136` and `4·6378136`, chord `2·√3·6378136`, semi-perimeter
`(6 + 2·√3)·6378136/2`, and the out-of-plane unit normal. -/
noncomputable def ellipticalGeometry : TransferGeometry :=
  ⟨ellipticalDeparturePosition, ellipticalArrivalPosition, 12756272, 25512544,
   Real.sqrt 3 * 12756272,
   (12756272 + 25512544 + Real.sqrt 3 * 12756272) / 2, ⟨0, 0, 1⟩, false⟩

theorem ellipticalGeometry_ok :
    buildTransferGeometry ellipticalDeparturePosition ellipticalArrivalPosition
      false false = .ok ellipticalGeometry := by
  rw [ellipticalGeometry]
  have h3 := Real.sq_sqrt (by norm_num : (0 : ℝ) ≤ 3)
  have h3pos : (0 : ℝ) < Real.sqrt 3 := Real.sqrt_pos.mpr (by norm_num)
  have hcross : Vec3.cross ellipticalDeparturePosition ellipticalArrivalPosition =
      ⟨0, 0, 12756272 * (Real.sqrt 3 * 12756272)⟩ := by
    simp [Vec3.cross, ellipticalDeparturePosition, ellipticalArrivalPosition]
  have hr1 : ellipticalDeparturePosition.norm = 12756272 := by
    rw [Vec3.norm, Vec3.dot]
    refine sqrt_eq_of_sq_eq (by norm_num) ?_
    simp [ellipticalDeparturePosition]
    norm_num
  have hr2 : ellipticalArrivalPosition.norm = 25512544 := by
    rw [Vec3.norm, Vec3.dot]
    refine sqrt_eq_of_sq_eq (by norm_num) ?_
    simp only [ellipticalArrivalPosition]
    nlinarith [h3]
  have hchord : (Vec3.sub ellipticalArrivalPosition ellipticalDeparturePosition).norm =
      Real.sqrt 3 * 12756272 := by
    rw [Vec3.norm, Vec3.dot]
    refine sqrt_eq_of_sq_eq (by positivity) ?_
    simp only [Vec3.sub, ellipticalArrivalPosition, ellipticalDeparturePosition]
    nlinarith [h3]
  have hcrossnorm : (⟨0, 0, 12756272 * (Real.sqrt 3 * 12756272)⟩ : Vec3).norm =
      12756272 * (Real.sqrt 3 * 12756272) := by
    rw [Vec3.norm, Vec3.dot]
    refine sqrt_eq_of_sq_eq (by positivity) ?_
    ring
  simp only [buildTransferGeometry]
  rw [if_neg, if_neg]
  · rw [hcross, hr1, hr2, hchord, hcrossnorm]
    rw [if_pos (by positivity : (0 : ℝ) ≤ (⟨0, 0, 12756272 * (Real.sqrt 3 * 12756272)⟩ : Vec3).z)]
    have hne : (12756272 : ℝ) * (Real.sqrt 3 * 12756272) ≠ 0 := by positivity
    congr 1
    simp only [if_neg (by norm_num : ¬ (false = true)), Vec3.smul]
    have hz1 : (1 : ℝ) / (12756272 * (Real.sqrt 3 * 12756272)) *
        (12756272 * (Real.sqrt 3 * 12756272)) = 1 := by
      field_simp
    congr 1 <;> field_simp
  · rw [hcross]
    intro hc
    have hz := congrArg Vec3.z hc
    simp [Vec3.zero] at hz
  · intro hc
    rcases hc with h | h | h
    · have hx := congrArg Vec3.x h
      simp [ellipticalDeparturePosition, Vec3.zero] at hx
    · have hx := congrArg Vec3.x h
      simp [ellipticalArrivalPosition, Vec3.zero] at hx
    · have hy := congrArg Vec3.y h
      simp [Vec3.sub, ellipticalArrivalPosition, ellipticalDeparturePosition,
        Vec3.zero] at hy

/-- The dimensionless geometry of the elliptical scenario: semi-perimeter
`(3+√3)/2`, chord `√3` and arrival radius `2` in units of the departure
radius. -/
theorem ellipticalGeometryNormalized :
    ellipticalGeometry.semiPerimeter / ellipticalGeometry.radiusAtDeparture =
      (3 + Real.sqrt 3) / 2 ∧
    ellipticalGeometry.chord / ellipticalGeometry.radiusAtDeparture = Real.sqrt 3 ∧
    ellipticalGeometry.radiusAtArrival / ellipticalGeometry.radiusAtDeparture = 2 := by
  refine ⟨?_, ?_, ?_⟩ <;>
    · simp only [ellipticalGeometry]
      field_simp
      try ring

/-- Closed elliptical-branch form of the Izzo time of flight over the
reference geometry: all trigonometric terms reduced to arcsines and square
roots via the double-angle identities, with
`m = (s-c)/(2·aMin) = 2 - √3`. -/
theorem izzoTimeOfFlightEllipticalForm (x : ℝ) (h0 : 0 ≤ x) (hx1 : x < 1) :
    computeTimeOfFlightIzzo x ((3 + Real.sqrt 3) / 2) (Real.sqrt 3) false
      ((3 + Real.sqrt 3) / 4) =
    Real.sqrt (((3 + Real.sqrt 3) / 4 / (1 - x ^ 2)) ^ 3) *
      ((π - 2 * Real.arcsin x - 2 * x * Real.sqrt (1 - x ^ 2)) -
       (2 * Real.arcsin (Real.sqrt ((2 - Real.sqrt 3) * (1 - x ^ 2))) -
        2 * Real.sqrt ((2 - Real.sqrt 3) * (1 - x ^ 2)) *
          Real.sqrt (1 - (2 - Real.sqrt 3) * (1 - x ^ 2)))) := by
  have h3 := Real.sq_sqrt (by norm_num : (0 : ℝ) ≤ 3)
  have h3lo := sqrt_three_enclose.1
  have h3hi := sqrt_three_enclose.2
  have hx2 : (0 : ℝ) < 1 - x ^ 2 := by nlinarith
  have harg : ((3 + Real.sqrt 3) / 2 - Real.sqrt 3) /
      (2 * ((3 + Real.sqrt 3) / 4 / (1 - x ^ 2))) =
      (2 - Real.sqrt 3) * (1 - x ^ 2) := by
    rw [div_eq_iff (by positivity)]
    field_simp
    nlinarith [h3]
  have hwsq : (0 : ℝ) ≤ (2 - Real.sqrt 3) * (1 - x ^ 2) := by nlinarith
  have hw1 : Real.sqrt ((2 - Real.sqrt 3) * (1 - x ^ 2)) ≤ 1 := by
    refine Real.sqrt_le_one.mpr ?_
    nlinarith
  have hw0 : (0 : ℝ) ≤ Real.sqrt ((2 - Real.sqrt 3) * (1 - x ^ 2)) := Real.sqrt_nonneg _
  simp only [computeTimeOfFlightIzzo]
  rw [if_pos hx1, if_neg (by norm_num : ¬ (false = true))]
  rw [harg]
  rw [Real.sin_two_mul, Real.sin_two_mul]
  rw [Real.sin_arccos, Real.cos_arccos (by linarith) (le_of_lt hx1)]
  rw [Real.sin_arcsin (by linarith) hw1, Real.cos_arcsin]
  rw [Real.arccos_eq_pi_div_two_sub_arcsin]
  rw [Real.sq_sqrt hwsq]
  ring
